import Mathlib

/-!
Verification development for the feature-resolution and deduplication engine of
the harmony dashboard: a shallow embedding of `src/services/webFeaturesService.ts`
(normalization, alias index, `resolveFeatureIdByName`, `getFeatureBaselineStatus`)
together with the plan-deduplication pass of `analyzeUIDesign` in
`src/services/geminiService.ts`, and proofs about the embedded functions.

Strings are modelled by Lean `String`; JavaScript string primitives
(`toLowerCase`, `trim`, `includes`, the regex classes `\s` and `\w`) are embedded
as executable functions below.  Case mapping is modelled on the ASCII range,
which covers every string occurring in the repository's data and prompts.
-/

namespace Harmony

set_option maxRecDepth 100000

/-- Whitespace as matched by the JavaScript regex class `\s` (also the character
set removed by `String.prototype.trim`): space, tab, line terminators, and the
Unicode space separators. -/
def isJsSpace (c : Char) : Bool :=
  c = ' ' || c = '\t' || c = '\n' || c = '\r' || c.toNat = 11 || c.toNat = 12 ||
  c.toNat = 160 || c.toNat = 5760 || (8192 ≤ c.toNat && c.toNat ≤ 8202) ||
  c.toNat = 8232 || c.toNat = 8233 || c.toNat = 8239 || c.toNat = 8287 ||
  c.toNat = 12288 || c.toNat = 65279

/-- ASCII case mapping of JavaScript `toLowerCase`. -/
def jsToLower (c : Char) : Char :=
  if 'A' ≤ c ∧ c ≤ 'Z' then Char.ofNat (c.toNat + 32) else c

/-- Does the list start with the given pattern?  (Building block for
`String.prototype.includes`.) -/
def startsWithL : List Char → List Char → Bool
  | _, [] => true
  | [], _ :: _ => false
  | a :: as, b :: bs => a = b && startsWithL as bs

/-- Does `l` contain `sub` as a contiguous sublist? -/
def containsL : List Char → List Char → Bool
  | [], sub => sub.isEmpty
  | a :: rest, sub => startsWithL (a :: rest) sub || containsL rest sub

/-- JavaScript `a.includes(b)`: `b` occurs as a substring of `a`. -/
def jsIncludes (a b : String) : Bool :=
  containsL a.data b.data

/-- Collapse each maximal run of `\s` characters into a single space: the
effect of `.replace(/\s+/g, " ")`.  The boolean records whether the previous
character was part of a whitespace run. -/
def collapseWsAux : Bool → List Char → List Char
  | _, [] => []
  | prevSpace, c :: rest =>
    if isJsSpace c then
      if prevSpace then collapseWsAux true rest
      else ' ' :: collapseWsAux true rest
    else c :: collapseWsAux false rest

/-- JavaScript `String.prototype.trim`: drop `\s` characters from both ends. -/
def trimJs (cs : List Char) : List Char :=
  ((cs.dropWhile isJsSpace).reverse.dropWhile isJsSpace).reverse

/-- Characters kept by the service's normalizer, i.e. the class `[a-z0-9\s-]`
(applied after lowercasing). -/
def isNormKeep (c : Char) : Bool :=
  ('a' ≤ c && c ≤ 'z') || ('0' ≤ c && c ≤ '9') || isJsSpace c || c = '-'

/-- `normalize` from `webFeaturesService.ts`: lowercase, strip characters
outside `[a-z0-9\s-]`, collapse whitespace runs to single spaces, trim. -/
def normalize (s : String) : String :=
  ⟨trimJs (collapseWsAux false ((s.data.map jsToLower).filter isNormKeep))⟩

/-- The deduplicator's name normalization, `f.name.toLowerCase().trim()`. -/
def lowerTrim (s : String) : String :=
  ⟨trimJs (s.data.map jsToLower)⟩

/-- Characters matched by the JavaScript regex class `\w`. -/
def isWordChar (c : Char) : Bool :=
  ('a' ≤ c && c ≤ 'z') || ('A' ≤ c && c ≤ 'Z') || ('0' ≤ c && c ≤ '9') || c = '_'

/-- `.replace(/[^\w\s]/g, "")`: keep only word characters and whitespace. -/
def stripPunct (s : String) : String :=
  ⟨s.data.filter (fun c => isWordChar c || isJsSpace c)⟩

/-- Truthiness of an optional string, as used by JavaScript conditions such as
`if (f.featureId)`: `undefined` and the empty string are falsy. -/
def truthyS : Option String → Bool
  | none => false
  | some s => s ≠ ""

/-- JavaScript `a || b` on optional strings: `a` when truthy, else `b`. -/
def orTruthy (a b : Option String) : Option String :=
  if truthyS a then a else b

/-- JavaScript `a ?? b` (nullish coalescing) on options. -/
def orNullish {α : Type} (a b : Option α) : Option α :=
  match a with
  | some x => some x
  | none => b

/-- A JavaScript primitive value as it occurs in the dataset's `baseline` and
`support` fields: a string, a number, or a boolean. -/
inductive JsVal where
  | vStr (s : String)
  | vNum (n : Nat)
  | vBool (b : Bool)
deriving DecidableEq, Repr

/-- Ordered association list standing for a JavaScript object with string keys
(no integer-like keys occur in this development, so object key order is
insertion order).  Assignment to an existing key overwrites the value in
place; assignment to a fresh key appends. -/
def insertKV (m : List (String × String)) (k v : String) : List (String × String) :=
  if m.any (fun p => p.1 = k) then
    m.map (fun p => if p.1 = k then (k, v) else p)
  else m ++ [(k, v)]

/-- Object property read, `m[k]`. -/
def lookupKV (m : List (String × String)) (k : String) : Option String :=
  (m.find? (fun p => p.1 = k)).map (fun p => p.2)

/-- Property read on a `JsVal`-valued object. -/
def lookupJV (m : List (String × JsVal)) (k : String) : Option JsVal :=
  (m.find? (fun p => p.1 = k)).map (fun p => p.2)

/-- The `status` object of a dataset record: `baseline` (boolean, `"low"` or
`"unknown"`) and the per-browser `support` object. -/
structure FeatureStatus where
  baseline : JsVal
  support : List (String × JsVal)
deriving DecidableEq, Repr

/-- A record of the curated dataset `WEB_FEATURES_DATA` (`webFeaturesData.ts`).
Only the fields read by the embedded operations are modelled: `id`, `title`,
`status` and `aliases`.  The purely descriptive metadata (`description`,
`group`, `tags`, MDN links, timeline dates, …) is echoed verbatim into
baseline snapshots by the service and inspected by no modelled operation, so
it is omitted here. -/
structure WebFeatureRecord where
  id : String
  title : String
  status : FeatureStatus
  aliases : List String
deriving DecidableEq, Repr

/-- `WEB_FEATURES_DATA`, in declaration order (`Object.values` order: every key
of the source object is the record's dotted id, never integer-like, so values
enumerate in insertion order).  Each record's key equals its `id` field in the
source, so the table is modelled as a list and keyed lookup as `find?` on
`id`. -/
def WEB_FEATURES_DATA : List WebFeatureRecord := [
  ⟨"css.properties.display", "CSS Display Property",
    ⟨.vBool true, [("chrome", .vStr "1"), ("firefox", .vStr "1"), ("safari", .vStr "1"), ("edge", .vStr "12")]⟩,
    ["display", "css display"]⟩,
  ⟨"css.properties.grid", "CSS Grid Layout",
    ⟨.vBool true, [("chrome", .vStr "57"), ("firefox", .vStr "52"), ("safari", .vStr "10.1"), ("edge", .vStr "16"),
      ("chrome_android", .vStr "57"), ("firefox_android", .vStr "52"), ("safari_ios", .vStr "10.3")]⟩,
    ["grid", "grid layout", "css grid"]⟩,
  ⟨"css.properties.flexbox", "CSS Flexbox",
    ⟨.vBool true, [("chrome", .vStr "29"), ("firefox", .vStr "28"), ("safari", .vStr "9"), ("edge", .vStr "12"),
      ("chrome_android", .vStr "29"), ("firefox_android", .vStr "28"), ("safari_ios", .vStr "9")]⟩,
    ["flex", "flexbox", "flex layout", "css flexbox"]⟩,
  ⟨"css.properties.container-query", "CSS Container Queries",
    ⟨.vBool false, [("chrome", .vStr "105"), ("firefox", .vStr "110"), ("safari", .vStr "16"), ("edge", .vStr "105")]⟩,
    ["container queries", "container query"]⟩,
  ⟨"css.properties.aspect-ratio", "CSS Aspect Ratio",
    ⟨.vStr "low", [("chrome", .vStr "88"), ("firefox", .vStr "89"), ("safari", .vStr "15"), ("edge", .vStr "88")]⟩,
    ["aspect ratio", "aspect-ratio"]⟩,
  ⟨"css.properties.position-sticky", "CSS position: sticky",
    ⟨.vBool true, [("chrome", .vStr "56"), ("firefox", .vStr "32"), ("safari", .vStr "6.1"), ("edge", .vStr "16")]⟩,
    ["sticky", "position sticky"]⟩,
  ⟨"css.media.prefers-color-scheme", "Dark Mode (prefers-color-scheme)",
    ⟨.vBool true, [("chrome", .vStr "76"), ("firefox", .vStr "67"), ("safari", .vStr "12.1"), ("edge", .vStr "79"),
      ("chrome_android", .vStr "76"), ("firefox_android", .vStr "67"), ("safari_ios", .vStr "13")]⟩,
    ["dark mode", "theming", "prefers-color-scheme"]⟩,
  ⟨"css.properties.color-scheme", "CSS color-scheme",
    ⟨.vBool true, [("chrome", .vStr "81"), ("firefox", .vStr "96"), ("safari", .vStr "15"), ("edge", .vStr "81")]⟩,
    ["color scheme", "color-scheme"]⟩,
  ⟨"css.custom-properties", "CSS Custom Properties (Variables)",
    ⟨.vBool true, [("chrome", .vStr "49"), ("firefox", .vStr "31"), ("safari", .vStr "9.1"), ("edge", .vStr "15")]⟩,
    ["css variables", "custom properties", "variables"]⟩,
  ⟨"css.at-rules.media", "CSS Media Queries",
    ⟨.vBool true, [("chrome", .vStr "21"), ("firefox", .vStr "9"), ("safari", .vStr "6"), ("edge", .vStr "12")]⟩,
    ["media queries", "responsive", "@media"]⟩,
  ⟨"css.functions.clamp", "CSS clamp()",
    ⟨.vBool true, [("chrome", .vStr "79"), ("firefox", .vStr "75"), ("safari", .vStr "13.1"), ("edge", .vStr "79")]⟩,
    ["clamp", "fluid typography"]⟩,
  ⟨"css.selectors.has", ":has() selector",
    ⟨.vStr "low", [("chrome", .vStr "105"), ("firefox", .vStr "121"), ("safari", .vStr "15.4"), ("edge", .vStr "105")]⟩,
    [":has", "has selector"]⟩,
  ⟨"css.selectors.is", ":is() selector",
    ⟨.vBool true, [("chrome", .vStr "88"), ("firefox", .vStr "78"), ("safari", .vStr "14"), ("edge", .vStr "88")]⟩,
    [":is", "is selector"]⟩,
  ⟨"css.selectors.where", ":where() selector",
    ⟨.vBool true, [("chrome", .vStr "88"), ("firefox", .vStr "78"), ("safari", .vStr "15.4"), ("edge", .vStr "88")]⟩,
    [":where", "where selector"]⟩,
  ⟨"html.elements.img.srcset", "Responsive Images: srcset",
    ⟨.vBool true, [("chrome", .vStr "34"), ("firefox", .vStr "38"), ("safari", .vStr "9"), ("edge", .vStr "14")]⟩,
    ["responsive images", "srcset"]⟩,
  ⟨"html.elements.img.sizes", "Responsive Images: sizes",
    ⟨.vBool true, [("chrome", .vStr "34"), ("firefox", .vStr "38"), ("safari", .vStr "9"), ("edge", .vStr "14")]⟩,
    ["sizes attribute", "responsive images"]⟩,
  ⟨"html.elements.dialog", "<dialog> element",
    ⟨.vBool true, [("chrome", .vBool true), ("firefox", .vBool true), ("safari", .vBool true), ("edge", .vBool true),
      ("chrome_android", .vBool true), ("firefox_android", .vBool true), ("safari_ios", .vStr "15.4")]⟩,
    ["dialog", "modal dialog"]⟩,
  ⟨"html.attributes.popover", "Popover attribute",
    ⟨.vStr "low", [("chrome", .vBool true), ("firefox", .vBool false), ("safari", .vBool true), ("edge", .vBool true)]⟩,
    ["popover", "popover attribute"]⟩,
  ⟨"js.syntax.optional-chaining", "Optional chaining (?.)",
    ⟨.vBool true, [("chrome", .vStr "80"), ("firefox", .vStr "72"), ("safari", .vStr "13.1"), ("edge", .vStr "80"),
      ("chrome_android", .vStr "80"), ("firefox_android", .vStr "79"), ("safari_ios", .vStr "13.4")]⟩,
    ["optional chaining", "?.", "safe navigation", "null conditional"]⟩,
  ⟨"js.syntax.top-level-await", "Top-level await",
    ⟨.vBool true, [("chrome", .vBool true), ("firefox", .vBool true), ("safari", .vBool true), ("edge", .vBool true)]⟩,
    ["tla", "top level await"]⟩,
  ⟨"js.import-maps", "Import Maps",
    ⟨.vStr "low", [("chrome", .vBool true), ("firefox", .vBool false), ("safari", .vBool true), ("edge", .vBool true)]⟩,
    ["import maps"]⟩,
  ⟨"api.fetch", "Fetch API",
    ⟨.vBool true, [("chrome", .vBool true), ("firefox", .vBool true), ("safari", .vBool true), ("edge", .vBool true)]⟩,
    ["fetch"]⟩,
  ⟨"api.abort-controller", "AbortController",
    ⟨.vBool true, [("chrome", .vBool true), ("firefox", .vBool true), ("safari", .vBool true), ("edge", .vBool true)]⟩,
    ["abortcontroller", "abort signal"]⟩,
  ⟨"api.websocket", "WebSocket",
    ⟨.vBool true, [("chrome", .vBool true), ("firefox", .vBool true), ("safari", .vBool true), ("edge", .vBool true)]⟩,
    ["websocket"]⟩,
  ⟨"api.indexeddb", "IndexedDB",
    ⟨.vBool true, [("chrome", .vBool true), ("firefox", .vBool true), ("safari", .vBool true), ("edge", .vBool true)]⟩,
    ["indexeddb", "idb"]⟩,
  ⟨"api.cache-storage", "Cache Storage API",
    ⟨.vBool true, [("chrome", .vBool true), ("firefox", .vBool true), ("safari", .vBool true), ("edge", .vBool true)]⟩,
    ["cache storage", "caches"]⟩,
  ⟨"api.service-worker", "Service Worker",
    ⟨.vBool true, [("chrome", .vBool true), ("firefox", .vBool true), ("safari", .vBool true), ("edge", .vBool true),
      ("chrome_android", .vBool true), ("firefox_android", .vBool true), ("safari_ios", .vStr "11.1")]⟩,
    ["service worker", "sw"]⟩,
  ⟨"api.web-app-manifest", "Web App Manifest",
    ⟨.vStr "low", [("chrome", .vBool true), ("firefox", .vBool false), ("safari", .vBool true), ("edge", .vBool true)]⟩,
    ["manifest.json", "pwa manifest"]⟩,
  ⟨"api.web-share", "Web Share API",
    ⟨.vStr "low", [("chrome", .vBool true), ("firefox", .vBool false), ("safari", .vBool true), ("edge", .vBool true),
      ("chrome_android", .vBool true), ("firefox_android", .vBool false), ("safari_ios", .vBool true)]⟩,
    ["navigator.share", "web share"]⟩,
  ⟨"api.file-system-access", "File System Access API",
    ⟨.vStr "low", [("chrome", .vBool true), ("firefox", .vBool false), ("safari", .vBool false), ("edge", .vBool true)]⟩,
    ["file system access", "showOpenFilePicker"]⟩,
  ⟨"http.csp", "Content Security Policy (CSP)",
    ⟨.vBool true, [("chrome", .vBool true), ("firefox", .vBool true), ("safari", .vBool true), ("edge", .vBool true)]⟩,
    ["csp", "content security policy"]⟩,
  ⟨"http.referrer-policy", "Referrer Policy",
    ⟨.vBool true, [("chrome", .vBool true), ("firefox", .vBool true), ("safari", .vBool true), ("edge", .vBool true)]⟩,
    ["referrer policy"]⟩,
  ⟨"api.webauthn", "WebAuthn (Passkeys)",
    ⟨.vBool true, [("chrome", .vBool true), ("firefox", .vBool true), ("safari", .vBool true), ("edge", .vBool true)]⟩,
    ["webauthn", "passkeys"]⟩,
  ⟨"api.geolocation", "Geolocation API",
    ⟨.vBool true, [("chrome", .vBool true), ("firefox", .vBool true), ("safari", .vBool true), ("edge", .vBool true),
      ("chrome_android", .vBool true), ("firefox_android", .vBool true), ("safari_ios", .vBool true)]⟩,
    ["geolocation"]⟩,
  ⟨"api.screen-wake-lock", "Screen Wake Lock API",
    ⟨.vStr "low", [("chrome", .vBool true), ("firefox", .vBool false), ("safari", .vBool true), ("edge", .vBool true)]⟩,
    ["wake lock", "screen wakelock"]⟩,
  ⟨"api.mediarecorder", "MediaRecorder",
    ⟨.vBool true, [("chrome", .vBool true), ("firefox", .vBool true), ("safari", .vBool true), ("edge", .vBool true)]⟩,
    ["media recorder", "record media"]⟩,
  ⟨"api.webrtc", "WebRTC",
    ⟨.vBool true, [("chrome", .vBool true), ("firefox", .vBool true), ("safari", .vBool true), ("edge", .vBool true),
      ("chrome_android", .vBool true), ("firefox_android", .vBool true), ("safari_ios", .vStr "11")]⟩,
    ["webrtc", "rtc"]⟩,
  ⟨"api.media-session", "Media Session API",
    ⟨.vStr "low", [("chrome", .vBool true), ("firefox", .vBool false), ("safari", .vBool true), ("edge", .vBool true)]⟩,
    ["media session"]⟩,
  ⟨"api.view-transitions", "View Transitions API",
    ⟨.vStr "low", [("chrome", .vBool true), ("firefox", .vBool false), ("safari", .vBool true), ("edge", .vBool true)]⟩,
    ["view transitions", "document.startViewTransition"]⟩,
  ⟨"api.navigation", "Navigation API",
    ⟨.vStr "low", [("chrome", .vBool true), ("firefox", .vBool false), ("safari", .vBool true), ("edge", .vBool true)]⟩,
    ["navigation api", "app history"]⟩,
  ⟨"js.sharedarraybuffer", "SharedArrayBuffer & Atomics",
    ⟨.vStr "low", [("chrome", .vBool true), ("firefox", .vBool true), ("safari", .vBool true), ("edge", .vBool true)]⟩,
    ["sharedarraybuffer", "atomics"]⟩,
  ⟨"http.headers.coop", "Cross-Origin-Opener-Policy (COOP)",
    ⟨.vStr "low", [("chrome", .vBool true), ("firefox", .vBool true), ("safari", .vBool true), ("edge", .vBool true)]⟩,
    ["coop", "cross-origin-opener-policy"]⟩,
  ⟨"http.headers.coep", "Cross-Origin-Embedder-Policy (COEP)",
    ⟨.vStr "low", [("chrome", .vBool true), ("firefox", .vBool true), ("safari", .vBool true), ("edge", .vBool true)]⟩,
    ["coep", "cross-origin-embedder-policy"]⟩,
  ⟨"http.headers.corp", "Cross-Origin-Resource-Policy (CORP)",
    ⟨.vBool true, [("chrome", .vBool true), ("firefox", .vBool true), ("safari", .vBool true), ("edge", .vBool true)]⟩,
    ["corp", "cross-origin-resource-policy"]⟩,
  ⟨"api.clipboard", "Async Clipboard API",
    ⟨.vStr "low", [("chrome", .vBool true), ("firefox", .vBool true), ("safari", .vBool true), ("edge", .vBool true)]⟩,
    ["clipboard api", "navigator.clipboard", "clipboard-read", "clipboard-write"]⟩,
  ⟨"api.elementinternals", "ElementInternals (Custom Elements)",
    ⟨.vStr "low", [("chrome", .vBool true), ("firefox", .vBool false), ("safari", .vBool true), ("edge", .vBool true)]⟩,
    ["element internals", "form-associated custom elements"]⟩,
  ⟨"api.resize-observer", "ResizeObserver",
    ⟨.vBool true, [("chrome", .vBool true), ("firefox", .vBool true), ("safari", .vBool true), ("edge", .vBool true)]⟩,
    ["resizeobserver"]⟩,
  ⟨"api.webcodecs", "WebCodecs",
    ⟨.vStr "low", [("chrome", .vBool true), ("firefox", .vBool false), ("safari", .vBool true), ("edge", .vBool true)]⟩,
    ["web codecs"]⟩,
  ⟨"api.webgpu", "WebGPU",
    ⟨.vStr "low", [("chrome", .vBool true), ("firefox", .vBool false), ("safari", .vBool true), ("edge", .vBool true)]⟩,
    ["wgpu", "gpu"]⟩,
  ⟨"api.offscreen-canvas", "OffscreenCanvas",
    ⟨.vStr "low", [("chrome", .vBool true), ("firefox", .vBool true), ("safari", .vBool false), ("edge", .vBool true)]⟩,
    ["offscreen canvas", "transferControlToOffscreen"]⟩]

/-- The legacy minimal mock table of `webFeaturesService.ts`, keyed by feature
id; kept as a fallback when an id is missing from the curated dataset. -/
def mockFeatures : List (String × FeatureStatus) := [
  ("css.properties.display",
    ⟨.vBool true, [("chrome", .vStr "1"), ("firefox", .vStr "1"), ("safari", .vStr "1"), ("edge", .vStr "12")]⟩),
  ("css.properties.grid",
    ⟨.vBool true, [("chrome", .vStr "57"), ("firefox", .vStr "52"), ("safari", .vStr "10.1"), ("edge", .vStr "16")]⟩),
  ("css.properties.flexbox",
    ⟨.vBool true, [("chrome", .vStr "29"), ("firefox", .vStr "28"), ("safari", .vStr "9"), ("edge", .vStr "12")]⟩),
  ("css.properties.container-query",
    ⟨.vBool false, [("chrome", .vStr "105"), ("firefox", .vStr "110"), ("safari", .vStr "16"), ("edge", .vStr "105")]⟩),
  ("css.properties.aspect-ratio",
    ⟨.vStr "low", [("chrome", .vStr "88"), ("firefox", .vStr "89"), ("safari", .vStr "15"), ("edge", .vStr "88")]⟩),
  ("css.media.prefers-color-scheme",
    ⟨.vBool true, [("chrome", .vStr "76"), ("firefox", .vStr "67"), ("safari", .vStr "12.1"), ("edge", .vStr "79")]⟩),
  ("css.properties.color-scheme",
    ⟨.vBool true, [("chrome", .vStr "81"), ("firefox", .vStr "96"), ("safari", .vStr "15"), ("edge", .vStr "81")]⟩),
  ("css.custom-properties",
    ⟨.vBool true, [("chrome", .vStr "49"), ("firefox", .vStr "31"), ("safari", .vStr "9.1"), ("edge", .vStr "15")]⟩)]

/-- The manual alias table of `webFeaturesService.ts`, in declaration order.
Keys are taken verbatim from the source (they are spread into the alias index
without normalization). -/
def manualAlias : List (String × String) := [
  ("dark mode", "css.media.prefers-color-scheme"),
  ("dark mode/theming", "css.media.prefers-color-scheme"),
  ("theming", "css.media.prefers-color-scheme"),
  ("theme", "css.media.prefers-color-scheme"),
  ("prefers color scheme", "css.media.prefers-color-scheme"),
  ("prefers-color-scheme", "css.media.prefers-color-scheme"),
  ("color scheme", "css.properties.color-scheme"),
  ("color-scheme", "css.properties.color-scheme"),
  ("css variables", "css.custom-properties"),
  ("variables", "css.custom-properties"),
  ("custom properties", "css.custom-properties"),
  ("css custom properties", "css.custom-properties"),
  ("flexbox", "css.properties.flexbox"),
  ("flexbox layout", "css.properties.flexbox"),
  ("css flexbox", "css.properties.flexbox"),
  ("flex layout", "css.properties.flexbox"),
  ("grid", "css.properties.grid"),
  ("grid layout", "css.properties.grid"),
  ("css grid", "css.properties.grid"),
  ("css grid layout", "css.properties.grid"),
  ("fetch", "api.fetch"),
  ("websocket", "api.websocket"),
  ("websockets", "api.websocket"),
  ("abortcontroller", "api.abort-controller"),
  ("service worker", "api.service-worker"),
  ("web app manifest", "api.web-app-manifest"),
  ("manifest", "api.web-app-manifest"),
  ("web share", "api.web-share"),
  ("indexeddb", "api.indexeddb"),
  ("idb", "api.indexeddb"),
  ("caches", "api.cache-storage"),
  ("csp", "http.csp"),
  ("referrer policy", "http.referrer-policy"),
  ("webauthn", "api.webauthn"),
  ("optional chaining", "js.syntax.optional-chaining"),
  ("import maps", "js.import-maps"),
  ("view transitions", "api.view-transitions"),
  ("navigation api", "api.navigation"),
  ("sharedarraybuffer", "js.sharedarraybuffer"),
  ("coop", "http.headers.coop"),
  ("coep", "http.headers.coep"),
  ("corp", "http.headers.corp"),
  ("clipboard", "api.clipboard"),
  ("clipboard api", "api.clipboard"),
  ("navigator.clipboard", "api.clipboard"),
  ("element internals", "api.elementinternals"),
  ("elementinternals", "api.elementinternals"),
  ("resizeobserver", "api.resize-observer"),
  ("resize observer", "api.resize-observer"),
  ("webcodecs", "api.webcodecs"),
  ("web codecs", "api.webcodecs"),
  ("webgpu", "api.webgpu"),
  ("wgpu", "api.webgpu"),
  ("gpu", "api.webgpu"),
  ("offscreencanvas", "api.offscreen-canvas"),
  ("offscreen canvas", "api.offscreen-canvas")]

/-- Insert one dataset record's contributions into the alias index being
built: `out[normalize(rec.title)] = rec.id`, then
`out[normalize(a)] = rec.id` for each alias `a`. -/
def insertRecordAliases (m : List (String × String)) (r : WebFeatureRecord) :
    List (String × String) :=
  r.aliases.foldl (fun acc a => insertKV acc (normalize a) r.id)
    (insertKV m (normalize r.title) r.id)

/-- The alias index: the manual table spread first, then every dataset
record's normalized title and aliases assigned over it, in declaration
order. -/
def aliasIndex : List (String × String) :=
  WEB_FEATURES_DATA.foldl insertRecordAliases manualAlias

/-- The alias index, fully evaluated to a literal table.  This is purely a
proof-performance device: `aliasIndex_eq_lit` proves it equal to the
constructed index, and computational proofs rewrite with that equation so the
kernel does not replay the fold for every evaluation. -/
def aliasIndexL : List (String × String) := [
  ("dark mode", "css.media.prefers-color-scheme"),
  ("dark mode/theming", "css.media.prefers-color-scheme"),
  ("theming", "css.media.prefers-color-scheme"),
  ("theme", "css.media.prefers-color-scheme"),
  ("prefers color scheme", "css.media.prefers-color-scheme"),
  ("prefers-color-scheme", "css.media.prefers-color-scheme"),
  ("color scheme", "css.properties.color-scheme"),
  ("color-scheme", "css.properties.color-scheme"),
  ("css variables", "css.custom-properties"),
  ("variables", "css.custom-properties"),
  ("custom properties", "css.custom-properties"),
  ("css custom properties", "css.custom-properties"),
  ("flexbox", "css.properties.flexbox"),
  ("flexbox layout", "css.properties.flexbox"),
  ("css flexbox", "css.properties.flexbox"),
  ("flex layout", "css.properties.flexbox"),
  ("grid", "css.properties.grid"),
  ("grid layout", "css.properties.grid"),
  ("css grid", "css.properties.grid"),
  ("css grid layout", "css.properties.grid"),
  ("fetch", "api.fetch"),
  ("websocket", "api.websocket"),
  ("websockets", "api.websocket"),
  ("abortcontroller", "api.abort-controller"),
  ("service worker", "api.service-worker"),
  ("web app manifest", "api.web-app-manifest"),
  ("manifest", "api.web-app-manifest"),
  ("web share", "api.web-share"),
  ("indexeddb", "api.indexeddb"),
  ("idb", "api.indexeddb"),
  ("caches", "api.cache-storage"),
  ("csp", "http.csp"),
  ("referrer policy", "http.referrer-policy"),
  ("webauthn", "api.webauthn"),
  ("optional chaining", "js.syntax.optional-chaining"),
  ("import maps", "js.import-maps"),
  ("view transitions", "api.view-transitions"),
  ("navigation api", "api.navigation"),
  ("sharedarraybuffer", "js.sharedarraybuffer"),
  ("coop", "http.headers.coop"),
  ("coep", "http.headers.coep"),
  ("corp", "http.headers.corp"),
  ("clipboard", "api.clipboard"),
  ("clipboard api", "api.clipboard"),
  ("navigator.clipboard", "api.clipboard"),
  ("element internals", "api.elementinternals"),
  ("elementinternals", "api.elementinternals"),
  ("resizeobserver", "api.resize-observer"),
  ("resize observer", "api.resize-observer"),
  ("webcodecs", "api.webcodecs"),
  ("web codecs", "api.webcodecs"),
  ("webgpu", "api.webgpu"),
  ("wgpu", "api.webgpu"),
  ("gpu", "api.webgpu"),
  ("offscreencanvas", "api.offscreen-canvas"),
  ("offscreen canvas", "api.offscreen-canvas"),
  ("css display property", "css.properties.display"),
  ("display", "css.properties.display"),
  ("css display", "css.properties.display"),
  ("flex", "css.properties.flexbox"),
  ("css container queries", "css.properties.container-query"),
  ("container queries", "css.properties.container-query"),
  ("container query", "css.properties.container-query"),
  ("css aspect ratio", "css.properties.aspect-ratio"),
  ("aspect ratio", "css.properties.aspect-ratio"),
  ("aspect-ratio", "css.properties.aspect-ratio"),
  ("css position sticky", "css.properties.position-sticky"),
  ("sticky", "css.properties.position-sticky"),
  ("position sticky", "css.properties.position-sticky"),
  ("dark mode prefers-color-scheme", "css.media.prefers-color-scheme"),
  ("css color-scheme", "css.properties.color-scheme"),
  ("css custom properties variables", "css.custom-properties"),
  ("css media queries", "css.at-rules.media"),
  ("media queries", "css.at-rules.media"),
  ("responsive", "css.at-rules.media"),
  ("media", "css.at-rules.media"),
  ("css clamp", "css.functions.clamp"),
  ("clamp", "css.functions.clamp"),
  ("fluid typography", "css.functions.clamp"),
  ("has selector", "css.selectors.has"),
  ("has", "css.selectors.has"),
  ("is selector", "css.selectors.is"),
  ("is", "css.selectors.is"),
  ("where selector", "css.selectors.where"),
  ("where", "css.selectors.where"),
  ("responsive images srcset", "html.elements.img.srcset"),
  ("responsive images", "html.elements.img.sizes"),
  ("srcset", "html.elements.img.srcset"),
  ("responsive images sizes", "html.elements.img.sizes"),
  ("sizes attribute", "html.elements.img.sizes"),
  ("dialog element", "html.elements.dialog"),
  ("dialog", "html.elements.dialog"),
  ("modal dialog", "html.elements.dialog"),
  ("popover attribute", "html.attributes.popover"),
  ("popover", "html.attributes.popover"),
  ("", "js.syntax.optional-chaining"),
  ("safe navigation", "js.syntax.optional-chaining"),
  ("null conditional", "js.syntax.optional-chaining"),
  ("top-level await", "js.syntax.top-level-await"),
  ("tla", "js.syntax.top-level-await"),
  ("top level await", "js.syntax.top-level-await"),
  ("fetch api", "api.fetch"),
  ("abort signal", "api.abort-controller"),
  ("cache storage api", "api.cache-storage"),
  ("cache storage", "api.cache-storage"),
  ("sw", "api.service-worker"),
  ("manifestjson", "api.web-app-manifest"),
  ("pwa manifest", "api.web-app-manifest"),
  ("web share api", "api.web-share"),
  ("navigatorshare", "api.web-share"),
  ("file system access api", "api.file-system-access"),
  ("file system access", "api.file-system-access"),
  ("showopenfilepicker", "api.file-system-access"),
  ("content security policy csp", "http.csp"),
  ("content security policy", "http.csp"),
  ("webauthn passkeys", "api.webauthn"),
  ("passkeys", "api.webauthn"),
  ("geolocation api", "api.geolocation"),
  ("geolocation", "api.geolocation"),
  ("screen wake lock api", "api.screen-wake-lock"),
  ("wake lock", "api.screen-wake-lock"),
  ("screen wakelock", "api.screen-wake-lock"),
  ("mediarecorder", "api.mediarecorder"),
  ("media recorder", "api.mediarecorder"),
  ("record media", "api.mediarecorder"),
  ("webrtc", "api.webrtc"),
  ("rtc", "api.webrtc"),
  ("media session api", "api.media-session"),
  ("media session", "api.media-session"),
  ("view transitions api", "api.view-transitions"),
  ("documentstartviewtransition", "api.view-transitions"),
  ("app history", "api.navigation"),
  ("sharedarraybuffer atomics", "js.sharedarraybuffer"),
  ("atomics", "js.sharedarraybuffer"),
  ("cross-origin-opener-policy coop", "http.headers.coop"),
  ("cross-origin-opener-policy", "http.headers.coop"),
  ("cross-origin-embedder-policy coep", "http.headers.coep"),
  ("cross-origin-embedder-policy", "http.headers.coep"),
  ("cross-origin-resource-policy corp", "http.headers.corp"),
  ("cross-origin-resource-policy", "http.headers.corp"),
  ("async clipboard api", "api.clipboard"),
  ("navigatorclipboard", "api.clipboard"),
  ("clipboard-read", "api.clipboard"),
  ("clipboard-write", "api.clipboard"),
  ("elementinternals custom elements", "api.elementinternals"),
  ("form-associated custom elements", "api.elementinternals"),
  ("transfercontroltooffscreen", "api.offscreen-canvas")]

/-- The constructed alias index evaluates to the literal table. -/
theorem aliasIndex_eq_lit : aliasIndex = aliasIndexL := by rfl

/-- The fuzzy containment scan of `resolveFeatureIdByName`: the first
`(alias, id)` entry, in index insertion order, such that the alias is a
substring of the normalized input or vice versa. -/
def findFuzzy : List (String × String) → String → Option String
  | [], _ => none
  | (al, id) :: rest, n =>
    if jsIncludes n al || jsIncludes al n then some id else findFuzzy rest n

/-- `resolveFeatureIdByName` from `webFeaturesService.ts`: normalize, return a
truthy exact hit in the alias index, otherwise scan for a containment
match. -/
def resolveFeatureIdByName (name : String) : Option String :=
  let n := normalize name
  if truthyS (lookupKV aliasIndex n) then lookupKV aliasIndex n
  else findFuzzy aliasIndex n

/-- The baseline snapshot returned by `getFeatureBaselineStatus`.  `status`
and the per-browser `support`/`versions` maps are modelled; the metadata
fields echoed verbatim from the record (`description`, `tags`, links, …) are
inspected by no modelled operation and are omitted. -/
structure FeatureBaselineStatus where
  status : String
  support : List (String × Bool)
  versions : List (String × JsVal)
deriving DecidableEq, Repr

/-- The tracked browser keys (`BROWSER_SUPPORT_MAP`), in declaration order. -/
def trackedBrowsers : List String := ["chrome", "edge", "firefox", "safari"]

/-- `getFeatureBaselineStatus`: look up the record in the curated dataset,
falling back to the mock table; derive the 3-valued status from `baseline`
(boolean `true` ↦ `"high"`, `false` ↦ `"low"`, string passed through, any
other shape left at the initial `"unknown"`); derive one boolean support flag
per tracked browser (version string or number ↦ `true`, explicit boolean
as-is, absent ↦ `false`), recording present raw values in `versions`. -/
def getFeatureBaselineStatus (featureId : String) : Option FeatureBaselineStatus :=
  let fromData := (WEB_FEATURES_DATA.find? (fun r => r.id = featureId)).map
    (fun r => r.status)
  let fromMock := (mockFeatures.find? (fun p => p.1 = featureId)).map (fun p => p.2)
  match orNullish fromData fromMock with
  | none => none
  | some fstat =>
    let status : String :=
      match fstat.baseline with
      | .vBool true => "high"
      | .vBool false => "low"
      | .vStr s => s
      | .vNum _ => "unknown"
    let support : List (String × Bool) := trackedBrowsers.map (fun b =>
      (b, match lookupJV fstat.support b with
          | some (.vStr _) => true
          | some (.vNum _) => true
          | some (.vBool x) => x
          | none => false))
    let versions : List (String × JsVal) := trackedBrowsers.filterMap (fun b =>
      (lookupJV fstat.support b).map (fun v => (b, v)))
    some ⟨status, support, versions⟩

/-- `getFeatureBaselineByName`: resolve the name, then look the id up. -/
def getFeatureBaselineByName (featureName : String) : Option FeatureBaselineStatus :=
  match resolveFeatureIdByName featureName with
  | none => none
  | some id => getFeatureBaselineStatus id

/-- A feature mention inside a plan section: `{ featureId?, name, baseline? }`.
`featureId` is `none` when the property is absent from the parsed JSON. -/
structure Mention where
  featureId : Option String
  name : String
  baseline : Option FeatureBaselineStatus
deriving DecidableEq, Repr

/-- A plan section as parsed from the AI response (`AnalysisSection`):
`webFeatures` is `none` when the property is absent (the code guards with
`Array.isArray`). -/
structure AnalysisSection where
  title : String
  content : String
  webFeatures : Option (List Mention)
deriving DecidableEq, Repr

/-- The rotating pool of demo fallback features of `analyzeUIDesign`. -/
structure PoolEntry where
  featureId : String
  name : String
deriving DecidableEq, Repr

instance : Inhabited PoolEntry := ⟨⟨"", ""⟩⟩

/-- `demoPool` from `analyzeUIDesign`, in declaration order. -/
def demoPool : List PoolEntry := [
  ⟨"css.media.prefers-color-scheme", "Dark Mode (prefers-color-scheme)"⟩,
  ⟨"css.properties.color-scheme", "CSS color-scheme"⟩,
  ⟨"css.custom-properties", "CSS Variables (Custom Properties)"⟩,
  ⟨"css.properties.grid", "CSS Grid Layout"⟩,
  ⟨"css.properties.flexbox", "CSS Flexbox"⟩,
  ⟨"css.properties.container-query", "CSS Container Queries"⟩,
  ⟨"css.properties.aspect-ratio", "CSS Aspect Ratio"⟩,
  ⟨"css.properties.display", "CSS Display Property"⟩,
  ⟨"js.syntax.optional-chaining", "Optional chaining (?.)"⟩,
  ⟨"js.syntax.top-level-await", "Top-level await"⟩,
  ⟨"api.fetch", "Fetch API"⟩,
  ⟨"api.service-worker", "Service Worker"⟩,
  ⟨"html.elements.dialog", "<dialog> element"⟩,
  ⟨"css.selectors.has", ":has() selector"⟩,
  ⟨"api.view-transitions", "View Transitions API"⟩,
  ⟨"css.functions.clamp", "CSS clamp()"⟩]

/-- The per-plan deduplication state: the process-wide sets
`allUsedFeatureIds` and `allUsedFeatureNames` (JavaScript `Set`s; only
membership matters, insertion modelled by appending). -/
structure DState where
  usedIds : List String
  usedNames : List String
deriving DecidableEq, Repr

/-- The enrichment step applied to every AI-supplied mention before the
duplicate filter: compute `byId`/`byName` baselines, resolve the id
(explicit id preferred, else resolve the name), producing
`{...f, featureId: resolvedId || f.featureId, baseline: f.baseline ?? byId ?? byName}`. -/
def enrich1 (f : Mention) : Mention :=
  let byId := if truthyS f.featureId then getFeatureBaselineStatus (f.featureId.getD "")
    else none
  let byName := if byId.isSome = false && f.name ≠ "" then getFeatureBaselineByName f.name
    else none
  let resolvedId := orTruthy f.featureId
    (if f.name ≠ "" then resolveFeatureIdByName f.name else none)
  { f with
    featureId := orTruthy resolvedId f.featureId
    baseline := orNullish f.baseline (orNullish byId byName) }

/-- The "similar variation" test of the duplicate filter: containment in
either direction, on the raw normalized names and on both names with
non-word, non-space characters stripped. -/
def isVariation (n e : String) : Bool :=
  jsIncludes n e || jsIncludes e n ||
  jsIncludes (stripPunct n) (stripPunct e) ||
  jsIncludes (stripPunct e) (stripPunct n)

/-- One step of the duplicate filter on an (already enriched) mention:
returns whether the mention is kept, and the updated used-sets.  A mention is
dropped when its truthy feature id is already used, or its lowercased trimmed
name is already used or is a variation of an already used name; a kept
mention immediately marks its id (when truthy) and its name as used. -/
def filterStep (st : DState) (f : Mention) : Bool × DState :=
  if truthyS f.featureId && st.usedIds.contains (f.featureId.getD "") then
    (false, st)
  else if st.usedNames.contains (lowerTrim f.name) ||
      st.usedNames.any (fun e => isVariation (lowerTrim f.name) e) then
    (false, st)
  else
    (true,
      ⟨(if truthyS f.featureId then st.usedIds ++ [f.featureId.getD ""] else st.usedIds),
       st.usedNames ++ [lowerTrim f.name]⟩)

/-- The sequential duplicate filter over a section's enriched mentions
(`Array.prototype.filter` with a side-effecting predicate runs
left-to-right). -/
def runFilter (st : DState) : List Mention → List Mention × DState
  | [] => ([], st)
  | f :: fs =>
    match filterStep st f with
    | (true, st1) =>
      let (ks, st2) := runFilter st1 fs
      (f :: ks, st2)
    | (false, st1) => runFilter st1 fs

/-- Is a pool entry blocked by the used-sets (the do-while loop's
condition)? -/
def poolUsed (st : DState) (p : PoolEntry) : Bool :=
  st.usedIds.contains p.featureId || st.usedNames.contains (lowerTrim p.name)

/-- The pool entry at cyclic position `k`. -/
def poolAt (k : Nat) : PoolEntry :=
  demoPool.getD (k % demoPool.length) default

/-- The do-while search for the next demo feature: starting at offset `a`
from `base`, advance while the current pick is used and fewer than pool-size
attempts were made; returns the final offset.  (`a + fuel` is the total
attempt budget; the search is entered with offset `0` and fuel
`demoPool.length`.) -/
def pickIndexGo (st : DState) (base : Nat) : Nat → Nat → Nat
  | 0, a => a
  | fuel + 1, a =>
    if poolUsed st (poolAt (base + a)) && a + 1 < demoPool.length then
      pickIndexGo st base fuel (a + 1)
    else a

/-- The filler mention built from a pool pick:
`{...pick, baseline: getFeatureBaselineStatus(pick.featureId)}`. -/
def mkFiller (p : PoolEntry) : Mention :=
  ⟨some p.featureId, p.name, getFeatureBaselineStatus p.featureId⟩

/-- The pick produced by one filler iteration: the entry at the final offset
of the do-while search started at `base`. -/
def fillPick (st : DState) (base : Nat) : PoolEntry :=
  poolAt (base + pickIndexGo st base demoPool.length 0)

/-- One filler iteration: run the do-while search from `base`, then add the
final pick only if its id and lowercased trimmed name are both unused,
marking them used. -/
def fillOne (st : DState) (base : Nat) : Option Mention × DState :=
  if !(st.usedIds.contains (fillPick st base).featureId)
      && !(st.usedNames.contains (lowerTrim (fillPick st base).name)) then
    (some (mkFiller (fillPick st base)),
     ⟨st.usedIds ++ [(fillPick st base).featureId],
      st.usedNames ++ [lowerTrim (fillPick st base).name]⟩)
  else (none, st)

/-- The filler loop `for (let i = 0; i < needed; i++)`: iteration `i` searches
from base `idx + i`; a failed iteration adds nothing but the loop
continues. -/
def fillerLoop (st : DState) (idx i : Nat) : Nat → List Mention × DState
  | 0 => ([], st)
  | r + 1 =>
    let (m, st1) := fillOne st (idx + i)
    let (rest, st2) := fillerLoop st1 idx (i + 1) r
    (m.toList ++ rest, st2)

/-- Processing of one section at plan index `idx`: enrich the AI-supplied
mentions (an absent `webFeatures` counts as the empty list), run the
duplicate filter, top up to two mentions from the demo pool, and store
kept mentions followed by fillers. -/
def processSection (st : DState) (idx : Nat) (sec : AnalysisSection) :
    AnalysisSection × DState :=
  let existing := sec.webFeatures.getD []
  let enrichedAll := existing.map enrich1
  let (kept, st1) := runFilter st enrichedAll
  let needed := 2 - kept.length
  let (fillers, st2) := fillerLoop st1 idx 0 needed
  ({ sec with webFeatures := some (kept ++ fillers) }, st2)

/-- The `plan.forEach` traversal: sections in order, with their index. -/
def processPlan (st : DState) (idx : Nat) : List AnalysisSection →
    List AnalysisSection × DState
  | [] => ([], st)
  | s :: ss =>
    let (s1, st1) := processSection st idx s
    let (ss1, st2) := processPlan st1 (idx + 1) ss
    (s1 :: ss1, st2)

/-- The whole deduplication pass of `analyzeUIDesign` on a parsed plan:
process every section in order starting from empty used-sets. -/
def dedupPlan (plan : List AnalysisSection) : List AnalysisSection :=
  (processPlan ⟨[], []⟩ 0 plan).1

/-- All mentions of a processed plan, in order. -/
def allMentions (plan : List AnalysisSection) : List Mention :=
  (plan.map (fun s => s.webFeatures.getD [])).flatten

/-! ### Derived views of the alias data used by the statements below -/

/-- Every alias declaration of the system: the manual table's pairs, and for
each dataset record its title and each of its aliases paired with the
record's id, in declaration order. -/
def declaredAliasPairs : List (String × String) :=
  manualAlias ++
    (WEB_FEATURES_DATA.map
      (fun r => (r.title, r.id) :: r.aliases.map (fun a => (a, r.id)))).flatten

/-- The normalized keys contributed to the alias index by the dataset
(normalized titles and aliases). -/
def datasetKeys : List String :=
  (WEB_FEATURES_DATA.map (fun r => normalize r.title :: r.aliases.map normalize)).flatten

/-- The ids (keys) of the curated dataset. -/
def datasetIds : List String :=
  WEB_FEATURES_DATA.map (fun r => r.id)

/-- The record lookup performed by `getFeatureBaselineStatus` on the curated
dataset. -/
def findRecord (id : String) : Option WebFeatureRecord :=
  WEB_FEATURES_DATA.find? (fun r => r.id = id)

/-- The status string the specification derives from a record's `baseline`
field: boolean `true` ↦ high, boolean `false` ↦ low, strings passed through,
anything else unknown. -/
def specStatusOf : JsVal → String
  | .vBool true => "high"
  | .vBool false => "low"
  | .vStr s => s
  | .vNum _ => "unknown"

/-- The support flag the specification derives from a raw per-browser support
value: version string or number ↦ supported, explicit boolean as-is, absent ↦
unsupported. -/
def specSupportOf : Option JsVal → Bool
  | some (.vStr _) => true
  | some (.vNum _) => true
  | some (.vBool x) => x
  | none => false

/-- Boolean support lookup in a baseline snapshot. -/
def lookupFB (m : List (String × Bool)) (k : String) : Option Bool :=
  (m.find? (fun p => p.1 = k)).map (fun p => p.2)

/-! ### Small evaluation lemmas shared by several proofs -/

/-- Every string contains the empty string (`a.includes("")` is true). -/
theorem containsL_nil (cs : List Char) : containsL cs [] = true := by
  cases cs <;> rfl

/-- `jsIncludes s "" = true` for every `s`. -/
theorem jsIncludes_empty (s : String) : jsIncludes s "" = true := by
  unfold jsIncludes
  exact containsL_nil s.data

/-- The fuzzy scan succeeds as soon as some entry stands in containment
relation with the input. -/
theorem findFuzzy_isSome (l : List (String × String)) (n : String)
    (h : ∃ p ∈ l, jsIncludes n p.1 || jsIncludes p.1 n) :
    (findFuzzy l n).isSome := by
  induction l with
  | nil => obtain ⟨p, hp, _⟩ := h; cases hp
  | cons q rest ih =>
    obtain ⟨p, hp, hmatch⟩ := h
    unfold findFuzzy
    by_cases hq : (jsIncludes n q.1 || jsIncludes q.1 n) = true
    · simp [hq]
    · rcases List.mem_cons.mp hp with rfl | hmem
      · exact absurd hmatch hq
      · simp only [hq]
        simp only [Bool.false_eq_true, if_false]
        exact ih ⟨p, hmem, hmatch⟩

/-- The empty string is a key of the alias index (contributed by the dataset
alias `"?."` of `js.syntax.optional-chaining`, whose normalization is
empty). -/
theorem aliasIndex_has_empty_key :
    lookupKV aliasIndex "" = some "js.syntax.optional-chaining" := by
  rw [aliasIndex_eq_lit]; rfl

/-- The resolver is total in the sense that it never returns `undefined`: the
exact branch returns a truthy hit, and otherwise the fuzzy scan always finds
the empty alias-index key, which every normalized input contains. -/
theorem resolveFeatureIdByName_isSome (s : String) :
    (resolveFeatureIdByName s).isSome := by
  unfold resolveFeatureIdByName
  by_cases h : truthyS (lookupKV aliasIndex (normalize s)) = true
  · simp only [h, if_true]
    cases hl : lookupKV aliasIndex (normalize s) with
    | none => rw [hl] at h; exact absurd h (by simp [truthyS])
    | some v => simp
  · simp only [h]
    simp only [Bool.false_eq_true, if_false]
    refine findFuzzy_isSome _ _ ⟨("", "js.syntax.optional-chaining"), ?_, ?_⟩
    · rw [aliasIndex_eq_lit]
      decide
    · simp [jsIncludes_empty]

/-! ### Invariants of the deduplication pass -/

/-- The deduplicator's name key of a mention. -/
def nnOf (m : Mention) : String := lowerTrim m.name

/-- Pointwise inclusion of deduplication states: the used-sets only grow. -/
structure SubState (s t : DState) : Prop where
  ids : ∀ x ∈ s.usedIds, x ∈ t.usedIds
  names : ∀ x ∈ s.usedNames, x ∈ t.usedNames

theorem SubState.rfl (s : DState) : SubState s s :=
  ⟨fun _ h => h, fun _ h => h⟩

theorem SubState.comp {s t u : DState} (h1 : SubState s t) (h2 : SubState t u) :
    SubState s u :=
  ⟨fun x hx => h2.ids x (h1.ids x hx), fun x hx => h2.names x (h1.names x hx)⟩

/-- The drop condition of the duplicate filter, as a function of the current
used-sets: used id, or used name, or variation of a used name. -/
def dropCond (st : DState) (f : Mention) : Bool :=
  (truthyS f.featureId && st.usedIds.contains (f.featureId.getD "")) ||
  (st.usedNames.contains (lowerTrim f.name) ||
    st.usedNames.any (fun e => isVariation (lowerTrim f.name) e))

/-- The state update of a kept mention: mark the truthy id and the name. -/
def markState (st : DState) (f : Mention) : DState :=
  ⟨(if truthyS f.featureId then st.usedIds ++ [f.featureId.getD ""] else st.usedIds),
   st.usedNames ++ [lowerTrim f.name]⟩

theorem filterStep_eq (st : DState) (f : Mention) :
    filterStep st f = if dropCond st f then (false, st) else (true, markState st f) := by
  cases h1 : (truthyS f.featureId && st.usedIds.contains (f.featureId.getD "")) with
  | true =>
    have hd : dropCond st f = true := by unfold dropCond; rw [h1]; rfl
    rw [hd]
    unfold filterStep
    rw [h1]
    rfl
  | false =>
    cases h2 : (st.usedNames.contains (lowerTrim f.name) ||
        st.usedNames.any (fun e => isVariation (lowerTrim f.name) e)) with
    | true =>
      have hd : dropCond st f = true := by unfold dropCond; rw [h1, h2]; rfl
      rw [hd]
      unfold filterStep
      rw [h1, h2]
      rfl
    | false =>
      have hd : dropCond st f = false := by unfold dropCond; rw [h1, h2]; rfl
      rw [hd]
      unfold filterStep
      rw [h1, h2]
      rfl

theorem subState_markState (st : DState) (f : Mention) : SubState st (markState st f) := by
  constructor
  · intro x hx
    unfold markState
    by_cases h : truthyS f.featureId = true <;> simp [h, hx]
  · intro x hx
    unfold markState
    simp [hx]

/-- Monotonicity of the drop condition: once a mention is a duplicate, it
stays one as the used-sets grow. -/
theorem dropCond_mono {st st' : DState} (h : SubState st st') (f : Mention)
    (hd : dropCond st f = true) : dropCond st' f = true := by
  unfold dropCond at hd ⊢
  simp only [Bool.or_eq_true, Bool.and_eq_true] at hd ⊢
  rcases hd with ⟨ht, hid⟩ | hname | hvar
  · exact Or.inl ⟨ht, by
      rw [List.contains_eq_any_beq] at hid ⊢
      rcases List.any_eq_true.mp hid with ⟨x, hx, hbeq⟩
      exact List.any_eq_true.mpr ⟨x, h.ids x hx, hbeq⟩⟩
  · refine Or.inr (Or.inl ?_)
    rw [List.contains_eq_any_beq] at hname ⊢
    rcases List.any_eq_true.mp hname with ⟨x, hx, hbeq⟩
    exact List.any_eq_true.mpr ⟨x, h.names x hx, hbeq⟩
  · refine Or.inr (Or.inr ?_)
    rcases List.any_eq_true.mp hvar with ⟨x, hx, hv⟩
    exact List.any_eq_true.mpr ⟨x, h.names x hx, hv⟩

/-- A mention that passes the filter has its name fresh: the name-contains
disjunct of the drop condition was false. -/
theorem dropCond_false_name {st : DState} {f : Mention}
    (h : dropCond st f = false) : lowerTrim f.name ∉ st.usedNames := by
  intro hmem
  unfold dropCond at h
  simp only [Bool.or_eq_false_iff] at h
  have := h.2.1
  rw [List.contains_eq_any_beq] at this
  have : st.usedNames.any (fun x => lowerTrim f.name == x) = true :=
    List.any_eq_true.mpr ⟨_, hmem, by simp⟩
  simp_all

/-- A mention that passes the filter is no variation of any used name. -/
theorem dropCond_false_variation {st : DState} {f : Mention}
    (h : dropCond st f = false) {e : String} (he : e ∈ st.usedNames) :
    isVariation (lowerTrim f.name) e = false := by
  unfold dropCond at h
  simp only [Bool.or_eq_false_iff] at h
  have := h.2.2
  by_contra hne
  have : st.usedNames.any (fun x => isVariation (lowerTrim f.name) x) = true :=
    List.any_eq_true.mpr ⟨e, he, by simpa using hne⟩
  simp_all

theorem mem_markState_name (st : DState) (f : Mention) :
    lowerTrim f.name ∈ (markState st f).usedNames := by
  unfold markState
  simp

theorem mem_markState_id (st : DState) (f : Mention) (h : truthyS f.featureId = true) :
    f.featureId.getD "" ∈ (markState st f).usedIds := by
  unfold markState
  simp [h]

/-- Specification of the sequential duplicate filter: the state only grows;
every kept mention was no duplicate at entry, and its name (and truthy id)
is marked in the final state; the kept names are pairwise distinct. -/
theorem runFilter_spec (l : List Mention) (st : DState) :
    SubState st (runFilter st l).2 ∧
    (∀ m ∈ (runFilter st l).1,
      dropCond st m = false ∧
      lowerTrim m.name ∈ (runFilter st l).2.usedNames ∧
      (truthyS m.featureId = true → m.featureId.getD "" ∈ (runFilter st l).2.usedIds)) ∧
    ((runFilter st l).1.map nnOf).Nodup := by
  induction l generalizing st with
  | nil =>
    refine ⟨SubState.rfl st, ?_, by simp [runFilter]⟩
    intro m hm
    simp [runFilter] at hm
  | cons f fs ih =>
    unfold runFilter
    rw [filterStep_eq]
    by_cases hd : dropCond st f = true
    · simp only [hd, if_true]
      obtain ⟨ihS, ihK, ihN⟩ := ih st
      exact ⟨ihS, ihK, ihN⟩
    · simp only [hd]
      simp only [Bool.false_eq_true, if_false]
      obtain ⟨ihS, ihK, ihN⟩ := ih (markState st f)
      have hsub : SubState st (runFilter (markState st f) fs).2 :=
        (subState_markState st f).comp ihS
      refine ⟨hsub, ?_, ?_⟩
      · intro m hm
        rcases List.mem_cons.mp hm with rfl | hmem
        · refine ⟨by simpa using hd, ?_, ?_⟩
          · exact ihS.names _ (mem_markState_name st m)
          · intro ht
            exact ihS.ids _ (mem_markState_id st m ht)
        · obtain ⟨hdc, hn, hi⟩ := ihK m hmem
          refine ⟨?_, hn, hi⟩
          by_contra hcon
          have : dropCond (markState st f) m = true :=
            dropCond_mono (subState_markState st f) m (by simpa using hcon)
          simp_all
      · simp only [List.map_cons, List.nodup_cons]
        refine ⟨?_, ihN⟩
        intro hmem
        rcases List.mem_map.mp hmem with ⟨m, hm, heq⟩
        obtain ⟨hdc, _, _⟩ := ihK m hm
        have hnot := dropCond_false_name hdc
        simp only [nnOf] at heq
        rw [heq] at hnot
        exact hnot (mem_markState_name st f)


/-! ### The filler loop -/

theorem poolAt_mem (k : Nat) : poolAt k ∈ demoPool := by
  unfold poolAt
  have hlen : k % demoPool.length < demoPool.length := Nat.mod_lt _ (by decide)
  rw [List.getD_eq_getElem _ _ hlen]
  exact List.getElem_mem hlen

theorem fillPick_mem (st : DState) (b : Nat) : fillPick st b ∈ demoPool :=
  poolAt_mem _

theorem subState_poolMark (st : DState) (p : PoolEntry) :
    SubState st ⟨st.usedIds ++ [p.featureId], st.usedNames ++ [lowerTrim p.name]⟩ := by
  constructor <;> intro x hx <;> simp [hx]

/-- Specification of one filler iteration: the state grows; a produced filler
is an enrichment of a pool entry that was unblocked at entry and whose id and
name are marked afterwards. -/
theorem fillOne_spec (st : DState) (b : Nat) :
    SubState st (fillOne st b).2 ∧
    ∀ m ∈ (fillOne st b).1.toList,
      ∃ p ∈ demoPool, m = mkFiller p ∧
        poolUsed st p = false ∧
        p.featureId ∈ (fillOne st b).2.usedIds ∧
        lowerTrim p.name ∈ (fillOne st b).2.usedNames := by
  unfold fillOne
  cases h1 : st.usedIds.contains (fillPick st b).featureId with
  | true =>
    simp only [h1, Bool.not_true, Bool.false_and, Bool.false_eq_true, if_false]
    exact ⟨SubState.rfl st, by intro m hm; simp at hm⟩
  | false =>
    cases h2 : st.usedNames.contains (lowerTrim (fillPick st b).name) with
    | true =>
      simp only [h1, h2, Bool.not_true, Bool.not_false, Bool.true_and, Bool.false_eq_true,
        if_false]
      exact ⟨SubState.rfl st, by intro m hm; simp at hm⟩
    | false =>
      simp only [h1, h2, Bool.not_false, Bool.true_and, if_true]
      refine ⟨subState_poolMark st _, ?_⟩
      intro m hm
      simp only [Option.toList_some, List.mem_singleton] at hm
      subst hm
      refine ⟨fillPick st b, fillPick_mem st b, rfl, ?_, by simp, by simp⟩
      unfold poolUsed
      rw [h1, h2]
      rfl

/-- Specification of the filler loop: the state grows; every produced filler
comes from a pool entry unblocked at loop entry whose name is marked in the
final state; filler names are pairwise distinct. -/
theorem fillerLoop_spec (r : Nat) (st : DState) (idx i : Nat) :
    SubState st (fillerLoop st idx i r).2 ∧
    (∀ m ∈ (fillerLoop st idx i r).1,
      ∃ p ∈ demoPool, m = mkFiller p ∧
        poolUsed st p = false ∧
        lowerTrim p.name ∈ (fillerLoop st idx i r).2.usedNames) ∧
    ((fillerLoop st idx i r).1.map nnOf).Nodup := by
  induction r generalizing st i with
  | zero =>
    refine ⟨SubState.rfl st, ?_, by simp [fillerLoop]⟩
    intro m hm
    simp [fillerLoop] at hm
  | succ r ih =>
    unfold fillerLoop
    obtain ⟨ihS, ihK, ihN⟩ := ih (fillOne st (idx + i)).2 (i + 1)
    obtain ⟨foS, foK⟩ := fillOne_spec st (idx + i)
    refine ⟨foS.comp ihS, ?_, ?_⟩
    · intro m hm
      rcases List.mem_append.mp hm with hm1 | hm2
      · obtain ⟨p, hp, hmf, hunused, hidm, hnmm⟩ := foK m hm1
        exact ⟨p, hp, hmf, hunused, ihS.names _ hnmm⟩
      · obtain ⟨p, hp, hmf, hunused, hnmm⟩ := ihK m hm2
        refine ⟨p, hp, hmf, ?_, hnmm⟩
        by_contra hcon
        have hused : poolUsed st p = true := by
          cases hpb : poolUsed st p with
          | true => rfl
          | false => exact absurd hpb hcon
        have hused2 : poolUsed (fillOne st (idx + i)).2 p = true := by
          unfold poolUsed at hused ⊢
          simp only [Bool.or_eq_true] at hused ⊢
          rcases hused with h | h
          · rcases List.any_eq_true.mp (by rw [List.contains_eq_any_beq] at h; exact h)
              with ⟨x, hx, hbeq⟩
            exact Or.inl (by
              rw [List.contains_eq_any_beq]
              exact List.any_eq_true.mpr ⟨x, foS.ids x hx, hbeq⟩)
          · rcases List.any_eq_true.mp (by rw [List.contains_eq_any_beq] at h; exact h)
              with ⟨x, hx, hbeq⟩
            exact Or.inr (by
              rw [List.contains_eq_any_beq]
              exact List.any_eq_true.mpr ⟨x, foS.names x hx, hbeq⟩)
        rw [hunused] at hused2
        cases hused2
    · rcases hfo : (fillOne st (idx + i)).1 with _ | m0
      · simp only [hfo, Option.toList_none, List.nil_append]
        exact ihN
      · have hm0 : m0 ∈ (fillOne st (idx + i)).1.toList := by rw [hfo]; simp
        obtain ⟨p0, hp0, hmf0, hunused0, hid0, hnm0⟩ := foK m0 hm0
        simp only [hfo, Option.toList_some, List.singleton_append, List.map_cons,
          List.nodup_cons]
        refine ⟨?_, ihN⟩
        intro hmem
        rcases List.mem_map.mp hmem with ⟨m, hm, heq⟩
        obtain ⟨p, hp, hmf, hunused, _⟩ := ihK m hm
        have hnm : lowerTrim p.name ∉ (fillOne st (idx + i)).2.usedNames := by
          intro hin
          have hpu : poolUsed (fillOne st (idx + i)).2 p = true := by
            unfold poolUsed
            simp only [Bool.or_eq_true]
            exact Or.inr (by
              rw [List.contains_eq_any_beq]
              exact List.any_eq_true.mpr ⟨_, hin, by simp⟩)
          rw [hunused] at hpu
          cases hpu
        have heq2 : lowerTrim p.name = lowerTrim p0.name := by
          have e1 : nnOf m = lowerTrim p.name := by rw [hmf]; rfl
          have e2 : nnOf m0 = lowerTrim p0.name := by rw [hmf0]; rfl
          rw [e1] at heq
          rw [e2] at heq
          exact heq
        rw [heq2] at hnm
        exact hnm hnm0

/-! ### Section and plan processing -/

theorem contains_false_not_mem {l : List String} {x : String}
    (h : l.contains x = false) : x ∉ l := by
  intro hm
  have hc : l.contains x = true := by
    rw [List.contains_eq_any_beq]
    exact List.any_eq_true.mpr ⟨x, hm, by simp⟩
  rw [h] at hc
  cases hc

theorem mem_contains_true {l : List String} {x : String} (h : x ∈ l) :
    l.contains x = true := by
  rw [List.contains_eq_any_beq]
  exact List.any_eq_true.mpr ⟨x, h, by simp⟩

/-- An unblocked pool entry is absent from both used-sets. -/
theorem poolUsed_false_not_mem {st : DState} {p : PoolEntry}
    (h : poolUsed st p = false) :
    p.featureId ∉ st.usedIds ∧ lowerTrim p.name ∉ st.usedNames := by
  unfold poolUsed at h
  simp only [Bool.or_eq_false_iff] at h
  exact ⟨contains_false_not_mem h.1, contains_false_not_mem h.2⟩

/-- Specification of one section's processing: titles and contents are kept;
the state grows; every output mention's name was unused at section entry and
is used at section exit; output names are pairwise distinct; and every output
mention is either a kept AI mention (no duplicate at entry, marking its
truthy id) or a filler from a pool entry whose id was unused at entry. -/
theorem processSection_spec (st : DState) (idx : Nat) (sec : AnalysisSection) :
    SubState st (processSection st idx sec).2 ∧
    (processSection st idx sec).1.title = sec.title ∧
    (processSection st idx sec).1.content = sec.content ∧
    (∀ m ∈ ((processSection st idx sec).1.webFeatures.getD []),
      lowerTrim m.name ∉ st.usedNames ∧
      lowerTrim m.name ∈ (processSection st idx sec).2.usedNames) ∧
    (((processSection st idx sec).1.webFeatures.getD []).map nnOf).Nodup ∧
    (∀ m ∈ ((processSection st idx sec).1.webFeatures.getD []),
      (dropCond st m = false ∧
        (truthyS m.featureId = true →
          m.featureId.getD "" ∈ (processSection st idx sec).2.usedIds)) ∨
      (∃ p ∈ demoPool, m = mkFiller p ∧ p.featureId ∉ st.usedIds)) := by
  obtain ⟨rfS, rfK, rfN⟩ := runFilter_spec ((sec.webFeatures.getD []).map enrich1) st
  obtain ⟨flS, flK, flN⟩ :=
    fillerLoop_spec (2 - (runFilter st ((sec.webFeatures.getD []).map enrich1)).1.length)
      (runFilter st ((sec.webFeatures.getD []).map enrich1)).2 idx 0
  have hsec : processSection st idx sec =
      (AnalysisSection.mk sec.title sec.content
          (some ((runFilter st ((sec.webFeatures.getD []).map enrich1)).1 ++
            (fillerLoop (runFilter st ((sec.webFeatures.getD []).map enrich1)).2 idx 0
              (2 - (runFilter st ((sec.webFeatures.getD []).map enrich1)).1.length)).1)),
        (fillerLoop (runFilter st ((sec.webFeatures.getD []).map enrich1)).2 idx 0
          (2 - (runFilter st ((sec.webFeatures.getD []).map enrich1)).1.length)).2) := by
    rfl
  rw [hsec]
  simp only [Option.getD_some]
  refine ⟨rfS.comp flS, by trivial, by trivial, ?_, ?_, ?_⟩
  · intro m hm
    rcases List.mem_append.mp hm with hk | hf
    · obtain ⟨hdc, hn, _⟩ := rfK m hk
      exact ⟨dropCond_false_name hdc, flS.names _ hn⟩
    · obtain ⟨p, hp, hmf, hunused, hnm⟩ := flK m hf
      have hpn := (poolUsed_false_not_mem hunused).2
      have hname : lowerTrim m.name = lowerTrim p.name := by rw [hmf]; rfl
      rw [hname]
      refine ⟨fun hmem => hpn (rfS.names _ hmem), hnm⟩
  · rw [List.map_append]
    refine List.Nodup.append rfN flN ?_
    intro x hx1 hx2
    rcases List.mem_map.mp hx1 with ⟨m, hm, hqm⟩
    rcases List.mem_map.mp hx2 with ⟨m2, hm2, hqm2⟩
    obtain ⟨_, hn, _⟩ := rfK m hm
    obtain ⟨p, hp, hmf, hunused, _⟩ := flK m2 hm2
    have hpn := (poolUsed_false_not_mem hunused).2
    refine hpn ?_
    have hname : nnOf m2 = lowerTrim p.name := by rw [hmf]; rfl
    rw [← hname, hqm2, ← hqm]
    exact hn
  · intro m hm
    rcases List.mem_append.mp hm with hk | hf
    · obtain ⟨hdc, _, hi⟩ := rfK m hk
      exact Or.inl ⟨hdc, fun ht => flS.ids _ (hi ht)⟩
    · obtain ⟨p, hp, hmf, hunused, _⟩ := flK m hf
      have hpi := (poolUsed_false_not_mem hunused).1
      exact Or.inr ⟨p, hp, hmf, fun hmem => hpi (rfS.ids _ hmem)⟩

/-- Specification of the whole pass: titles/contents and section count are
preserved; the state grows; every output mention's name is fresh relative to
the initial state and marked in the final state; and the normalized names of
all output mentions across the whole plan are pairwise distinct. -/
theorem processPlan_spec (plan : List AnalysisSection) (st : DState) (idx : Nat) :
    SubState st (processPlan st idx plan).2 ∧
    ((processPlan st idx plan).1.map (fun s => (s.title, s.content)) =
      plan.map (fun s => (s.title, s.content))) ∧
    (∀ m ∈ allMentions (processPlan st idx plan).1,
      lowerTrim m.name ∉ st.usedNames ∧
      lowerTrim m.name ∈ (processPlan st idx plan).2.usedNames) ∧
    ((allMentions (processPlan st idx plan).1).map nnOf).Nodup := by
  induction plan generalizing st idx with
  | nil =>
    refine ⟨SubState.rfl st, by simp [processPlan], ?_, by simp [processPlan, allMentions]⟩
    intro m hm
    simp [processPlan, allMentions] at hm
  | cons s ss ih =>
    obtain ⟨secS, secT, secC, secM, secN, _⟩ := processSection_spec st idx s
    obtain ⟨ihS, ihT, ihM, ihN⟩ := ih (processSection st idx s).2 (idx + 1)
    have hplan : processPlan st idx (s :: ss) =
        ((processSection st idx s).1 :: (processPlan (processSection st idx s).2 (idx + 1) ss).1,
         (processPlan (processSection st idx s).2 (idx + 1) ss).2) := by
      rfl
    rw [hplan]
    have hall : allMentions ((processSection st idx s).1 ::
        (processPlan (processSection st idx s).2 (idx + 1) ss).1) =
        ((processSection st idx s).1.webFeatures.getD []) ++
          allMentions (processPlan (processSection st idx s).2 (idx + 1) ss).1 := by
      simp [allMentions]
    refine ⟨secS.comp ihS, ?_, ?_, ?_⟩
    · simp only [List.map_cons, secT, secC, ihT]
    · rw [hall]
      intro m hm
      rcases List.mem_append.mp hm with h1 | h2
      · obtain ⟨hno, hyes⟩ := secM m h1
        exact ⟨hno, ihS.names _ hyes⟩
      · obtain ⟨hno, hyes⟩ := ihM m h2
        exact ⟨fun hmem => hno (secS.names _ hmem), hyes⟩
    · rw [hall, List.map_append]
      refine List.Nodup.append secN ihN ?_
      intro x hx1 hx2
      rcases List.mem_map.mp hx1 with ⟨m, hm, hqm⟩
      rcases List.mem_map.mp hx2 with ⟨m2, hm2, hqm2⟩
      obtain ⟨_, hyes⟩ := secM m hm
      obtain ⟨hno, _⟩ := ihM m2 hm2
      refine hno ?_
      change nnOf m2 ∈ _
      rw [hqm2, ← hqm]
      exact hyes

/-! ### The do-while search always finds an unblocked entry when one exists -/

theorem contains_true_mem {l : List String} {x : String}
    (h : l.contains x = true) : x ∈ l := by
  rw [List.contains_eq_any_beq] at h
  rcases List.any_eq_true.mp h with ⟨y, hy, hbeq⟩
  have hxy : x = y := by simpa using hbeq
  rw [hxy]
  exact hy

theorem not_mem_contains_false {l : List String} {x : String}
    (h : x ∉ l) : l.contains x = false := by
  cases hc : l.contains x with
  | false => rfl
  | true => exact absurd (contains_true_mem hc) h

/-- Invariant of the search loop: starting at offset `a` with `a + fuel`
equal to the pool size, if some offset in `[a, poolSize)` is unblocked, the
final pick is unblocked. -/
theorem pickIndexGo_spec (st : DState) (b : Nat) :
    ∀ fuel a, a + fuel = demoPool.length →
    (∃ d, a ≤ d ∧ d < demoPool.length ∧ poolUsed st (poolAt (b + d)) = false) →
    poolUsed st (poolAt (b + pickIndexGo st b fuel a)) = false := by
  intro fuel
  induction fuel with
  | zero =>
    intro a ha h
    obtain ⟨d, had, hd, _⟩ := h
    omega
  | succ fuel ih =>
    intro a ha h
    unfold pickIndexGo
    by_cases hp : poolUsed st (poolAt (b + a)) = true
    · by_cases hlt : a + 1 < demoPool.length
      · rw [if_pos (by simp [hp, hlt])]
        apply ih (a + 1) (by omega)
        obtain ⟨d, had, hd, hun⟩ := h
        refine ⟨d, ?_, hd, hun⟩
        rcases Nat.eq_or_lt_of_le had with rfl | hlt2
        · rw [hun] at hp; cases hp
        · omega
      · rw [if_neg (by simp [hlt])]
        obtain ⟨d, had, hd, hun⟩ := h
        have hda : d = a := by omega
        rw [hda] at hun
        rw [hun] at hp
        cases hp
    · rw [if_neg (by simp [hp])]
      simpa using hp

/-- Every pool member sits at some index. -/
theorem mem_pool_index {p : PoolEntry} (hp : p ∈ demoPool) :
    ∃ k, k < demoPool.length ∧ demoPool.getD k default = p := by
  obtain ⟨n, hn⟩ := List.get_of_mem hp
  refine ⟨n.1, n.2, ?_⟩
  rw [List.getD_eq_getElem _ _ n.2]
  rw [← hn]
  simp [List.get_eq_getElem]

/-- Cyclic reachability: every pool index is hit from any base within pool
size steps. -/
theorem cyclic_reach (k b : Nat) (hk : k < demoPool.length) :
    ∃ d, d < demoPool.length ∧ (b + d) % demoPool.length = k := by
  have hlen : demoPool.length = 16 := by rfl
  rw [hlen] at hk ⊢
  refine ⟨(16 + k - b % 16) % 16, by omega, by omega⟩

/-- If some pool entry is unblocked, one filler iteration succeeds: it adds
the (unblocked) final pick of the search, enriched, and marks it used. -/
theorem fillOne_success (st : DState) (b : Nat)
    (h : ∃ p ∈ demoPool, poolUsed st p = false) :
    fillOne st b = (some (mkFiller (fillPick st b)),
      ⟨st.usedIds ++ [(fillPick st b).featureId],
       st.usedNames ++ [lowerTrim (fillPick st b).name]⟩) ∧
    poolUsed st (fillPick st b) = false ∧ fillPick st b ∈ demoPool := by
  obtain ⟨p, hp, hun⟩ := h
  obtain ⟨k, hk, hpk⟩ := mem_pool_index hp
  obtain ⟨d, hd, hbd⟩ := cyclic_reach k b hk
  have hat : poolAt (b + d) = p := by
    unfold poolAt
    rw [hbd, hpk]
  have hspec : poolUsed st (fillPick st b) = false := by
    unfold fillPick
    exact pickIndexGo_spec st b demoPool.length 0 (by simp)
      ⟨d, Nat.zero_le d, hd, by rw [hat]; exact hun⟩
  have hcont : st.usedIds.contains (fillPick st b).featureId = false ∧
      st.usedNames.contains (lowerTrim (fillPick st b).name) = false := by
    unfold poolUsed at hspec
    simpa using hspec
  refine ⟨?_, hspec, fillPick_mem st b⟩
  unfold fillOne
  rw [hcont.1, hcont.2]
  rfl

/-- Unfolding equation for one section's processing. -/
theorem processSection_eq (st : DState) (idx : Nat) (sec : AnalysisSection) :
    processSection st idx sec =
      (AnalysisSection.mk sec.title sec.content
          (some ((runFilter st ((sec.webFeatures.getD []).map enrich1)).1 ++
            (fillerLoop (runFilter st ((sec.webFeatures.getD []).map enrich1)).2 idx 0
              (2 - (runFilter st ((sec.webFeatures.getD []).map enrich1)).1.length)).1)),
        (fillerLoop (runFilter st ((sec.webFeatures.getD []).map enrich1)).2 idx 0
          (2 - (runFilter st ((sec.webFeatures.getD []).map enrich1)).1.length)).2) := rfl

/-- Unfolding equation for the plan traversal. -/
theorem processPlan_cons (st : DState) (idx : Nat) (s : AnalysisSection)
    (ss : List AnalysisSection) :
    processPlan st idx (s :: ss) =
      ((processSection st idx s).1 ::
          (processPlan (processSection st idx s).2 (idx + 1) ss).1,
        (processPlan (processSection st idx s).2 (idx + 1) ss).2) := rfl

/-! ### Claim C5 — minimum fill of an empty section -/

/-- Two unrollings of the filler loop for a deficit of two. -/
theorem fillerLoop_two (st : DState) (idx : Nat) :
    fillerLoop st idx 0 2 =
      ((fillOne st (idx + 0)).1.toList ++
          ((fillOne (fillOne st (idx + 0)).2 (idx + (0 + 1))).1.toList ++ []),
        (fillOne (fillOne st (idx + 0)).2 (idx + (0 + 1))).2) := rfl

/-- Claim C5: for a section whose AI-supplied feature list is empty, when at
least two pool entries are unblocked, the processed section holds exactly two
features, both fillers drawn from the pool while unblocked, both enriched
with the baseline snapshot of their pool feature id, and both marked used in
the resulting state. -/
theorem minimum_fill (st : DState) (idx : Nat) (sec : AnalysisSection)
    (hempty : sec.webFeatures.getD [] = [])
    (hpool : 2 ≤ (demoPool.filter (fun p => !poolUsed st p)).length) :
    ∃ p q : PoolEntry, p ∈ demoPool ∧ q ∈ demoPool ∧
      poolUsed st p = false ∧
      (mkFiller p).baseline = getFeatureBaselineStatus p.featureId ∧
      (mkFiller q).baseline = getFeatureBaselineStatus q.featureId ∧
      (processSection st idx sec).1.webFeatures = some [mkFiller p, mkFiller q] ∧
      p.featureId ∈ (processSection st idx sec).2.usedIds ∧
      lowerTrim p.name ∈ (processSection st idx sec).2.usedNames ∧
      q.featureId ∈ (processSection st idx sec).2.usedIds ∧
      lowerTrim q.name ∈ (processSection st idx sec).2.usedNames := by
  have hnodup : demoPool.Nodup := by decide
  have hfid_nodup : (demoPool.map (fun p => p.featureId)).Nodup := by decide
  have hname_nodup : (demoPool.map (fun p => lowerTrim p.name)).Nodup := by decide
  rcases hl : demoPool.filter (fun p => !poolUsed st p) with _ | ⟨x, xtail⟩
  · rw [hl] at hpool; simp at hpool
  rcases xtail with _ | ⟨y, rest⟩
  · rw [hl] at hpool; simp at hpool
  have hxf : x ∈ demoPool.filter (fun p => !poolUsed st p) := by rw [hl]; simp
  have hyf : y ∈ demoPool.filter (fun p => !poolUsed st p) := by rw [hl]; simp
  have hx : x ∈ demoPool ∧ poolUsed st x = false := by
    have hmf := List.mem_filter.mp hxf
    exact ⟨hmf.1, by simpa using hmf.2⟩
  have hy : y ∈ demoPool ∧ poolUsed st y = false := by
    have hmf := List.mem_filter.mp hyf
    exact ⟨hmf.1, by simpa using hmf.2⟩
  have hxy : x ≠ y := by
    have hfilnodup := hnodup.filter (fun p => !poolUsed st p)
    rw [hl] at hfilnodup
    rcases List.nodup_cons.mp hfilnodup with ⟨hxnot, _⟩
    intro hcon
    rw [hcon] at hxnot
    exact hxnot (by simp)
  obtain ⟨hfo1, hun1, hmem1⟩ := fillOne_success st (idx + 0) ⟨x, hx.1, hx.2⟩
  have hinj_fid := List.inj_on_of_nodup_map hfid_nodup
  have hinj_name := List.inj_on_of_nodup_map hname_nodup
  have hsecond : ∃ q0, q0 ∈ demoPool ∧ poolUsed st q0 = false ∧
      q0 ≠ fillPick st (idx + 0) := by
    by_cases hpx : fillPick st (idx + 0) = x
    · exact ⟨y, hy.1, hy.2, fun hc => hxy (by rw [← hpx, hc])⟩
    · exact ⟨x, hx.1, hx.2, fun hc => hpx (by rw [hc])⟩
  obtain ⟨q0, hq0mem, hq0un, hq0ne⟩ := hsecond
  have hq0un1 : poolUsed
      ⟨st.usedIds ++ [(fillPick st (idx + 0)).featureId],
       st.usedNames ++ [lowerTrim (fillPick st (idx + 0)).name]⟩ q0 = false := by
    have hid : q0.featureId ∉ st.usedIds ++ [(fillPick st (idx + 0)).featureId] := by
      intro hmem
      rcases List.mem_append.mp hmem with h | h
      · exact (poolUsed_false_not_mem hq0un).1 h
      · have heq : q0.featureId = (fillPick st (idx + 0)).featureId := by simpa using h
        exact hq0ne (hinj_fid hq0mem hmem1 heq)
    have hnm : lowerTrim q0.name ∉
        st.usedNames ++ [lowerTrim (fillPick st (idx + 0)).name] := by
      intro hmem
      rcases List.mem_append.mp hmem with h | h
      · exact (poolUsed_false_not_mem hq0un).2 h
      · have heq : lowerTrim q0.name = lowerTrim (fillPick st (idx + 0)).name := by
          simpa using h
        exact hq0ne (hinj_name hq0mem hmem1 heq)
    unfold poolUsed
    rw [not_mem_contains_false hid, not_mem_contains_false hnm]
    rfl
  obtain ⟨hfo2, hun2, hmem2⟩ := fillOne_success
    ⟨st.usedIds ++ [(fillPick st (idx + 0)).featureId],
     st.usedNames ++ [lowerTrim (fillPick st (idx + 0)).name]⟩ (idx + (0 + 1))
    ⟨q0, hq0mem, hq0un1⟩
  have hfl : fillerLoop st idx 0 2 =
      ([mkFiller (fillPick st (idx + 0)),
        mkFiller (fillPick
          ⟨st.usedIds ++ [(fillPick st (idx + 0)).featureId],
           st.usedNames ++ [lowerTrim (fillPick st (idx + 0)).name]⟩ (idx + (0 + 1)))],
       ⟨(st.usedIds ++ [(fillPick st (idx + 0)).featureId]) ++
          [(fillPick ⟨st.usedIds ++ [(fillPick st (idx + 0)).featureId],
            st.usedNames ++ [lowerTrim (fillPick st (idx + 0)).name]⟩ (idx + (0 + 1))).featureId],
        (st.usedNames ++ [lowerTrim (fillPick st (idx + 0)).name]) ++
          [lowerTrim (fillPick ⟨st.usedIds ++ [(fillPick st (idx + 0)).featureId],
            st.usedNames ++ [lowerTrim (fillPick st (idx + 0)).name]⟩ (idx + (0 + 1))).name]⟩) := by
    rw [fillerLoop_two, hfo1]
    rw [show (some (mkFiller (fillPick st (idx + 0))),
        (⟨st.usedIds ++ [(fillPick st (idx + 0)).featureId],
          st.usedNames ++ [lowerTrim (fillPick st (idx + 0)).name]⟩ : DState)).2 =
        (⟨st.usedIds ++ [(fillPick st (idx + 0)).featureId],
          st.usedNames ++ [lowerTrim (fillPick st (idx + 0)).name]⟩ : DState) from rfl]
    rw [hfo2]
    simp
  have hrf : runFilter st (([] : List Mention).map enrich1) = ([], st) := rfl
  have hps : processSection st idx sec =
      (AnalysisSection.mk sec.title sec.content
        (some ([mkFiller (fillPick st (idx + 0)),
          mkFiller (fillPick
            ⟨st.usedIds ++ [(fillPick st (idx + 0)).featureId],
             st.usedNames ++ [lowerTrim (fillPick st (idx + 0)).name]⟩ (idx + (0 + 1)))])),
       ⟨(st.usedIds ++ [(fillPick st (idx + 0)).featureId]) ++
          [(fillPick ⟨st.usedIds ++ [(fillPick st (idx + 0)).featureId],
            st.usedNames ++ [lowerTrim (fillPick st (idx + 0)).name]⟩ (idx + (0 + 1))).featureId],
        (st.usedNames ++ [lowerTrim (fillPick st (idx + 0)).name]) ++
          [lowerTrim (fillPick ⟨st.usedIds ++ [(fillPick st (idx + 0)).featureId],
            st.usedNames ++ [lowerTrim (fillPick st (idx + 0)).name]⟩ (idx + (0 + 1))).name]⟩) := by
    rw [processSection_eq]
    rw [hempty]
    rw [hrf]
    simp only [List.length_nil, Nat.sub_zero]
    rw [hfl]
    simp
  refine ⟨fillPick st (idx + 0),
    fillPick ⟨st.usedIds ++ [(fillPick st (idx + 0)).featureId],
      st.usedNames ++ [lowerTrim (fillPick st (idx + 0)).name]⟩ (idx + (0 + 1)),
    hmem1, hmem2, hun1, rfl, rfl, ?_, ?_, ?_, ?_, ?_⟩ <;> rw [hps] <;> simp

/-! ### Claim C10 — frame property of the pass -/

/-- Claim C10: the deduplication pass modifies only the `webFeatures` field of
each section: the sequence of (title, content) pairs — hence the number and
order of sections — is exactly that of the parsed plan. -/
theorem dedup_frame (plan : List AnalysisSection) :
    (dedupPlan plan).map (fun s => (s.title, s.content)) =
      plan.map (fun s => (s.title, s.content)) ∧
    (dedupPlan plan).length = plan.length := by
  unfold dedupPlan
  have h := (processPlan_spec plan ⟨[], []⟩ 0).2.1
  refine ⟨h, ?_⟩
  have hlen := congrArg List.length h
  simpa using hlen

/-! ### Claim C1 — cross-plan uniqueness of a repeated feature name -/

/-- Claim C1 (amended): when the AI supplies a mention with the identical
feature name in every section, the deduplicated plan contains that normalized
name at most once (in fact all output mentions of a pass have pairwise
distinct normalized names, so no duplicate survives and no filler
re-introduces a used name); the stronger "exactly once, in the first section"
fails when the first occurrence is itself dropped as a variation of an
earlier kept mention. -/
theorem cross_section_at_most_once (plan : List AnalysisSection) (F : String)
    (_h : ∀ s ∈ plan, ∃ m ∈ s.webFeatures.getD [], m.name = F) :
    ((allMentions (dedupPlan plan)).map (fun m => lowerTrim m.name)).count
      (lowerTrim F) ≤ 1 := by
  unfold dedupPlan
  have hnd := (processPlan_spec plan ⟨[], []⟩ 0).2.2.2
  have hmap : (allMentions (processPlan ⟨[], []⟩ 0 plan).1).map (fun m => lowerTrim m.name) =
      (allMentions (processPlan ⟨[], []⟩ 0 plan).1).map nnOf := rfl
  rw [hmap]
  exact List.nodup_iff_count_le_one.mp hnd _

/-! ### Claim C6 — punctuation-variation duplicates across sections -/

/-- Claim C6: in any plan whose first section keeps the mention
`{name: "optional chaining"}`, no mention named `"Optional chaining (?.)"`
survives in the second section's output: an AI-supplied one is dropped (its
normalized name is a variation of the used name, and its resolved id is
used), and the pool filler carrying that name is blocked by its used id. -/
theorem punctuation_variation_drop (s1 s2 : AnalysisSection)
    (rest : List AnalysisSection)
    (hkept : enrich1 (Mention.mk none "optional chaining" none) ∈
      ((dedupPlan (s1 :: s2 :: rest)).headD
        (AnalysisSection.mk "" "" none)).webFeatures.getD []) :
    ∀ m ∈ (((dedupPlan (s1 :: s2 :: rest))[1]?).getD
        (AnalysisSection.mk "" "" none)).webFeatures.getD [],
      m.name ≠ "Optional chaining (?.)" := by
  unfold dedupPlan at hkept ⊢
  rw [processPlan_cons] at hkept ⊢
  simp only [List.headD_cons] at hkept
  rw [processPlan_cons]
  simp only [Nat.zero_add, List.getElem?_cons_succ, List.getElem?_cons_zero,
    Option.getD_some]
  obtain ⟨_, _, _, secM1, _, secDis1⟩ := processSection_spec ⟨[], []⟩ 0 s1
  have hfe : (enrich1 (Mention.mk none "optional chaining" none)).featureId =
      some "js.syntax.optional-chaining" := by rfl
  have hname1 : (enrich1 (Mention.mk none "optional chaining" none)).name =
      "optional chaining" := rfl
  -- the kept mention marks both its name and its resolved id
  have hnn : "optional chaining" ∈ (processSection ⟨[], []⟩ 0 s1).2.usedNames := by
    have hm := (secM1 _ hkept).2
    rw [hname1] at hm
    exact hm
  have hid : "js.syntax.optional-chaining" ∈ (processSection ⟨[], []⟩ 0 s1).2.usedIds := by
    rcases secDis1 _ hkept with ⟨_, hmark⟩ | ⟨p, hp, hmf, _⟩
    · have ht : truthyS (enrich1 (Mention.mk none "optional chaining" none)).featureId
          = true := by rw [hfe]; decide
      have := hmark ht
      rw [hfe] at this
      exact this
    · exfalso
      have hpn : p.name = "optional chaining" := by
        have := congrArg Mention.name hmf
        rw [hname1] at this
        exact this.symm
      have hnone : ∀ q ∈ demoPool, q.name ≠ "optional chaining" := by decide
      exact hnone p hp hpn
  -- no mention named "Optional chaining (?.)" survives section 2
  obtain ⟨_, _, _, _, _, secDis2⟩ :=
    processSection_spec (processSection ⟨[], []⟩ 0 s1).2 1 s2
  intro m hm hcon
  rcases secDis2 m hm with ⟨hdc, _⟩ | ⟨p, hp, hmf, hpid⟩
  · have hvar := dropCond_false_variation hdc hnn
    rw [hcon] at hvar
    have : isVariation (lowerTrim "Optional chaining (?.)") "optional chaining" = true := by
      decide
    rw [this] at hvar
    cases hvar
  · have hpn : p.name = "Optional chaining (?.)" := by
      have := congrArg Mention.name hmf
      rw [hcon] at this
      exact this.symm
    have hpool : ∀ q ∈ demoPool, q.name = "Optional chaining (?.)" →
        q.featureId = "js.syntax.optional-chaining" := by decide
    exact hpid (by rw [hpool p hp hpn]; exact hid)


/-! ### Claim C3 — alias round-trips -/

/-- The single round-trip failure: `"responsive images"` is declared by both
image records; the index write for the later record
(`html.elements.img.sizes`) overwrites the earlier one
(`html.elements.img.srcset`), so resolving the alias does not return the id
of its first declarer. -/
theorem alias_round_trip_counterexample :
    ("responsive images", "html.elements.img.srcset") ∈ declaredAliasPairs ∧
    resolveFeatureIdByName "responsive images" = some "html.elements.img.sizes" ∧
    some "html.elements.img.sizes" ≠ some "html.elements.img.srcset" := by
  refine ⟨by decide, ?_, by decide⟩
  simp only [resolveFeatureIdByName, aliasIndex_eq_lit]
  rfl

/-- Bulk check for the amended round-trip property. -/
theorem declaredAliasPairs_check : declaredAliasPairs.all
    (fun p => decide (p = ("responsive images", "html.elements.img.srcset")) ||
      decide (resolveFeatureIdByName p.1 = some p.2)) = true := by
  simp only [resolveFeatureIdByName, aliasIndex_eq_lit]
  rfl

/-- Claim C3 (amended): for every alias string declared in the manual alias
table or in a dataset record (as title or alias), `resolveFeatureIdByName`
returns the id of the declaring entry — except for the one normalized key
declared by two records, `"responsive images"`, where the resolver returns
the later declarer (`html.elements.img.sizes`), not the earlier
`html.elements.img.srcset`. -/
theorem alias_round_trip (a i : String) (h : (a, i) ∈ declaredAliasPairs) :
    (a, i) = ("responsive images", "html.elements.img.srcset") ∨
    resolveFeatureIdByName a = some i := by
  have hall := List.all_eq_true.mp declaredAliasPairs_check (a, i) h
  rcases Bool.or_eq_true_iff.mp hall with h1 | h2
  · exact Or.inl (of_decide_eq_true h1)
  · exact Or.inr (of_decide_eq_true h2)

/-- Witness for C3 at the declared manual alias `"grid"`. -/
theorem alias_round_trip_witness :
    ("grid", "css.properties.grid") ∈ declaredAliasPairs ∧
    (("grid", "css.properties.grid") = ("responsive images", "html.elements.img.srcset") ∨
      resolveFeatureIdByName "grid" = some "css.properties.grid") := by
  refine ⟨by decide, alias_round_trip "grid" "css.properties.grid" (by decide)⟩

/-! ### Claim C4 — behaviour on an unresolvable name -/

/-- Claim C4 as stated is false: `resolveFeatureIdByName "does-not-exist-xyz"`
does not return `undefined`; the fuzzy scan matches the alias-index key
`"is"` (the normalization of the dataset alias `":is"`), a substring of the
input, and returns `css.selectors.is`. -/
theorem resolve_nonexistent_counterexample :
    resolveFeatureIdByName "does-not-exist-xyz" = some "css.selectors.is" ∧
    some "css.selectors.is" ≠ (none : Option String) := by
  refine ⟨?_, by decide⟩
  simp only [resolveFeatureIdByName, aliasIndex_eq_lit]
  rfl

/-- Claim C4 (amended): `resolveFeatureIdByName "does-not-exist-xyz"` returns
`css.selectors.is` via the fuzzy containment scan, and in general the
resolver never returns `undefined` (and never throws): the dataset alias
`"?."` normalizes to the empty string, so the index owns a key that stands in
containment relation with every input. -/
theorem resolve_nonexistent :
    resolveFeatureIdByName "does-not-exist-xyz" = some "css.selectors.is" ∧
    ∀ s : String, (resolveFeatureIdByName s).isSome := by
  refine ⟨?_, resolveFeatureIdByName_isSome⟩
  simp only [resolveFeatureIdByName, aliasIndex_eq_lit]
  rfl

/-! ### Claim C7 — totality and postcondition of the enricher -/

/-- Claim C7: for every id that is a key of the curated dataset,
`getFeatureBaselineStatus` returns a defined snapshot whose status is derived
from the record's `baseline` field exactly as specified (`true` ↦ high,
`false` ↦ low, string passed through, anything else unknown, hence always one
of high/low/unknown on this dataset), and whose support map has a boolean
entry for every tracked browser derived as specified from the record's raw
support value. -/
theorem enricher_total_on_dataset (id : String) (h : id ∈ datasetIds) :
    (getFeatureBaselineStatus id).isSome ∧
    ((getFeatureBaselineStatus id).map (fun fbs => fbs.status)
      = (findRecord id).map (fun r => specStatusOf r.status.baseline)) ∧
    ((getFeatureBaselineStatus id).map (fun fbs => decide
        (fbs.status = "high" ∨ fbs.status = "low" ∨ fbs.status = "unknown"))
      = some true) ∧
    (∀ b ∈ trackedBrowsers,
      (getFeatureBaselineStatus id).map (fun fbs => lookupFB fbs.support b)
        = (findRecord id).map (fun r => some (specSupportOf (lookupJV r.status.support b)))) := by
  revert h
  revert id
  decide

/-- Witness for C7 at the dataset id `css.properties.grid`. -/
theorem enricher_total_on_dataset_witness :
    "css.properties.grid" ∈ datasetIds ∧
    ((getFeatureBaselineStatus "css.properties.grid").isSome ∧
      ((getFeatureBaselineStatus "css.properties.grid").map (fun fbs => fbs.status)
        = (findRecord "css.properties.grid").map (fun r => specStatusOf r.status.baseline)) ∧
      ((getFeatureBaselineStatus "css.properties.grid").map (fun fbs => decide
          (fbs.status = "high" ∨ fbs.status = "low" ∨ fbs.status = "unknown"))
        = some true) ∧
      (∀ b ∈ trackedBrowsers,
        (getFeatureBaselineStatus "css.properties.grid").map (fun fbs => lookupFB fbs.support b)
          = (findRecord "css.properties.grid").map
              (fun r => some (specSupportOf (lookupJV r.status.support b))))) := by
  exact ⟨by decide, enricher_total_on_dataset "css.properties.grid" (by decide)⟩

/-! ### Claim C8 — key collisions between the manual table and the dataset -/

/-- Bulk check: every manual key that also occurs among the dataset's
normalized titles/aliases is mapped by the final index to the manual entry's
id (each such collision happens to agree on the id, so the dataset's
overwrite is unobservable). -/
theorem manual_collision_check : manualAlias.all
    (fun p => !(decide (p.1 ∈ datasetKeys)) || decide (lookupKV aliasIndex p.1 = some p.2)) = true := by
  simp only [aliasIndex_eq_lit]
  rfl

/-- Claim C8: for every normalized key present both in the manual alias table
and among the normalized dataset titles/aliases, the constructed alias index
maps that key to the manual table's id. -/
theorem manual_alias_precedence (k v : String) (hm : (k, v) ∈ manualAlias)
    (hd : k ∈ datasetKeys) : lookupKV aliasIndex k = some v := by
  have hall := List.all_eq_true.mp manual_collision_check (k, v) hm
  rcases Bool.or_eq_true_iff.mp hall with h1 | h2
  · exact absurd hd (by simpa using h1)
  · exact of_decide_eq_true h2

/-- Witness for C8 at the colliding key `"grid"`. -/
theorem manual_alias_precedence_witness :
    ("grid", "css.properties.grid") ∈ manualAlias ∧ "grid" ∈ datasetKeys ∧
    lookupKV aliasIndex "grid" = some "css.properties.grid" := by
  exact ⟨by decide, by decide,
    manual_alias_precedence "grid" "css.properties.grid" (by decide) (by decide)⟩

/-! ### Claim C9 — inputs whose normalization is empty -/

/-- Claim C9 as stated is false: an input normalizing to the empty string does
resolve (that much is right), but not to the first index entry
(`css.media.prefers-color-scheme`); the exact lookup hits the key `""` first,
which the dataset alias `"?."` set to `js.syntax.optional-chaining`. -/
theorem empty_normalization_counterexample :
    resolveFeatureIdByName "???" = some "js.syntax.optional-chaining" ∧
    some "js.syntax.optional-chaining" ≠ some "css.media.prefers-color-scheme" := by
  refine ⟨?_, by decide⟩
  simp only [resolveFeatureIdByName, aliasIndex_eq_lit]
  rfl

/-- Claim C9 (amended): every input whose normalization is empty resolves to
`js.syntax.optional-chaining`, via the exact lookup: the dataset alias `"?."`
normalizes to the empty string, so `""` is an alias-index key mapped to that
id. -/
theorem empty_normalization_resolution (s : String) (h : normalize s = "") :
    resolveFeatureIdByName s = some "js.syntax.optional-chaining" := by
  unfold resolveFeatureIdByName
  rw [h, aliasIndex_eq_lit]
  rfl

/-- Witness for C9 at the input `"???"`. -/
theorem empty_normalization_resolution_witness :
    normalize "???" = "" ∧
    resolveFeatureIdByName "???" = some "js.syntax.optional-chaining" := by
  exact ⟨by rfl, empty_normalization_resolution "???" (by rfl)⟩


/-! ### Concrete plans used as counterexamples and witnesses -/

/-- A plan whose every section mentions `"Optional chaining (?.)"`, with the
first section also mentioning `"optional chaining"` before it. -/
def planOptChain : List AnalysisSection :=
  [⟨"Layout", "Use modern syntax.",
    some [⟨none, "optional chaining", none⟩, ⟨none, "Optional chaining (?.)", none⟩]⟩,
   ⟨"Theming", "Respect user preference.",
    some [⟨none, "Optional chaining (?.)", none⟩]⟩]

/-- Claim C1 as stated is false: in `planOptChain` the AI supplies a mention
named `"Optional chaining (?.)"` in every section, yet the deduplicated plan
contains that feature zero times — not exactly once in its first section —
because its first occurrence is itself dropped as a variation of the kept
mention `"optional chaining"`. -/
theorem cross_section_counterexample :
    (∀ s ∈ planOptChain, ∃ m ∈ s.webFeatures.getD [],
      m.name = "Optional chaining (?.)") ∧
    ((allMentions (dedupPlan planOptChain)).filter
      (fun m => m.name = "Optional chaining (?.)")).length = 0 := by
  refine ⟨by decide, ?_⟩
  rfl

/-- A one-section plan mentioning `"CSS Grid"`. -/
def planGridOnce : List AnalysisSection :=
  [⟨"Layout", "Grid everywhere.", some [⟨none, "CSS Grid", none⟩]⟩]

/-- Witness for C1 (amended) on `planGridOnce`. -/
theorem cross_section_at_most_once_witness :
    (∀ s ∈ planGridOnce, ∃ m ∈ s.webFeatures.getD [], m.name = "CSS Grid") ∧
    ((allMentions (dedupPlan planGridOnce)).map (fun m => lowerTrim m.name)).count
      (lowerTrim "CSS Grid") ≤ 1 := by
  exact ⟨by decide, cross_section_at_most_once planGridOnce "CSS Grid" (by decide)⟩

/-- Witness for C5: processing an empty section from the empty state. -/
theorem minimum_fill_witness :
    ((AnalysisSection.mk "t" "c" (some [])).webFeatures.getD [] = []) ∧
    (2 ≤ (demoPool.filter (fun p => !poolUsed ⟨[], []⟩ p)).length) ∧
    (∃ p q : PoolEntry, p ∈ demoPool ∧ q ∈ demoPool ∧
      poolUsed ⟨[], []⟩ p = false ∧
      (mkFiller p).baseline = getFeatureBaselineStatus p.featureId ∧
      (mkFiller q).baseline = getFeatureBaselineStatus q.featureId ∧
      (processSection ⟨[], []⟩ 0 (AnalysisSection.mk "t" "c" (some []))).1.webFeatures =
        some [mkFiller p, mkFiller q] ∧
      p.featureId ∈ (processSection ⟨[], []⟩ 0 (AnalysisSection.mk "t" "c" (some []))).2.usedIds ∧
      lowerTrim p.name ∈
        (processSection ⟨[], []⟩ 0 (AnalysisSection.mk "t" "c" (some []))).2.usedNames ∧
      q.featureId ∈ (processSection ⟨[], []⟩ 0 (AnalysisSection.mk "t" "c" (some []))).2.usedIds ∧
      lowerTrim q.name ∈
        (processSection ⟨[], []⟩ 0 (AnalysisSection.mk "t" "c" (some []))).2.usedNames) := by
  exact ⟨rfl, by decide, minimum_fill ⟨[], []⟩ 0 (AnalysisSection.mk "t" "c" (some [])) rfl
    (by decide)⟩

/-- The first section of the C6 witness plan. -/
def sectionOptA : AnalysisSection :=
  ⟨"First", "a", some [⟨none, "optional chaining", none⟩]⟩

/-- The second section of the C6 witness plan. -/
def sectionOptB : AnalysisSection :=
  ⟨"Second", "b", some [⟨none, "Optional chaining (?.)", none⟩]⟩

/-- Witness for C6 on the two-section plan `[sectionOptA, sectionOptB]`. -/
theorem punctuation_variation_drop_witness :
    (enrich1 (Mention.mk none "optional chaining" none) ∈
      ((dedupPlan (sectionOptA :: sectionOptB :: [])).headD
        (AnalysisSection.mk "" "" none)).webFeatures.getD []) ∧
    ∀ m ∈ (((dedupPlan (sectionOptA :: sectionOptB :: []))[1]?).getD
        (AnalysisSection.mk "" "" none)).webFeatures.getD [],
      m.name ≠ "Optional chaining (?.)" := by
  refine ⟨?_, ?_⟩
  · decide
  · exact punctuation_variation_drop sectionOptA sectionOptB [] (by decide)

end Harmony
